import Mathlib

/-!
Verification of the Tropadovth ticket-ledger core against its specification.

The Python source (`database.py`, `utils.py`) is shallowly embedded below.
JSON-like Python values are modelled by the inductive type `Value`; Python
dicts become association lists with unique keys maintained by in-place
update (`aSet`), mirroring dict assignment.  Functions that can raise a
Python exception are modelled as `Option`-valued functions (`none` = an
uncaught exception); functions that cannot raise are total.  The module's
wall clock (`datetime.utcnow`) is passed in as an explicit string argument,
and the JSON file backend is modelled by a `FileState` that stores a decoded
document (the standard library's JSON encode/decode pair is treated as exact
on JSON-representable documents).
-/

set_option autoImplicit false

namespace Tropadovth

/-- JSON-like Python value: `None`, booleans, integers, strings, lists and
string-keyed dicts (as produced by `json.loads` and by the ledger code). -/
inductive Value where
  | null : Value
  | bool : Bool → Value
  | int : Int → Value
  | str : String → Value
  | list : List Value → Value
  | dict : List (String × Value) → Value
deriving Repr

/-- Python dicts are modelled as association lists of string keys. -/
abbrev Dict := List (String × Value)

/-- First binding of key `k`, like Python `d[k]` / `d.get(k)` on a dict. -/
def aGet? {α : Type} : List (String × α) → String → Option α
  | [], _ => none
  | (k', v) :: t, k => if k' = k then some v else aGet? t k

/-- `d.get(k, dflt)`. -/
def aGetD {α : Type} (l : List (String × α)) (k : String) (dflt : α) : α :=
  (aGet? l k).getD dflt

/-- `k in d` for a dict. -/
def aHas {α : Type} (l : List (String × α)) (k : String) : Bool :=
  (aGet? l k).isSome

/-- `d[k] = v`: replace the binding in place if the key exists, else append
(Python dicts keep insertion order and unique keys). -/
def aSet {α : Type} : List (String × α) → String → α → List (String × α)
  | [], k, v => [(k, v)]
  | (k', w) :: t, k, v => if k' = k then (k, v) :: t else (k', w) :: aSet t k v

/-- `del d[k]`: drop the binding of `k`. -/
def aDel {α : Type} : List (String × α) → String → List (String × α)
  | [], _ => []
  | (k', w) :: t, k => if k' = k then t else (k', w) :: aDel t k

/-- Update the existing binding of `k` with `f` (used for `d[k]["c"] += 1`
style in-place updates on an entry known to be present). -/
def aUpd {α : Type} : List (String × α) → String → (α → α) → List (String × α)
  | [], _, _ => []
  | (k', w) :: t, k, f => if k' = k then (k', f w) :: t else (k', w) :: aUpd t k f

/-- Python truthiness of a value (`bool(x)`). -/
def Value.truthy : Value → Bool
  | .null => false
  | .bool b => b
  | .int n => n != 0
  | .str s => s != ""
  | .list xs => !xs.isEmpty
  | .dict d => !d.isEmpty

/-- Numeric view used by Python `+` and `==` on numbers: ints are themselves,
bools are 0/1 (`bool` is a subclass of `int`); everything else is non-numeric. -/
def Value.toNum? : Value → Option Int
  | .int n => some n
  | .bool b => some (if b then 1 else 0)
  | _ => none

/-- Python `s.strip()`: drop leading and trailing whitespace (structurally
recursive so that concrete instances reduce). -/
def pyStrip (s : String) : String :=
  .mk (((s.toList.dropWhile fun c => c.isWhitespace).reverse.dropWhile
    fun c => c.isWhitespace).reverse)

/-- Python `s.lower()` (ASCII case folding, as used by the tag matcher). -/
def pyLower (s : String) : String :=
  .mk (s.toList.map Char.toLower)

/-- Python `int(s)` on a string: optional sign and decimal digits, ignoring
surrounding whitespace; anything else raises (`none`). -/
def pyStrToInt? (s : String) : Option Int :=
  let cs := (pyStrip s).toList
  let signed : Bool × List Char :=
    match cs with
    | '-' :: t => (true, t)
    | '+' :: t => (false, t)
    | t => (false, t)
  if signed.2.isEmpty || signed.2.any (fun c => !c.isDigit) then none
  else
    let n : Nat := signed.2.foldl (fun acc c => acc * 10 + (c.toNat - '0'.toNat)) 0
    some (if signed.1 then -(n : Int) else (n : Int))

/-- Python `int(x)` conversion: ints, bools, and numeric strings convert;
anything else raises (`none`). -/
def pyToInt? : Value → Option Int
  | .int n => some n
  | .bool b => some (if b then 1 else 0)
  | .str s => pyStrToInt? s
  | _ => none

/-- Python `a or b`: first truthy operand. -/
def pyOr (a b : Value) : Value := if a.truthy then a else b

/-- Python `len(x)` for sized values; `none` for values without a length. -/
def pyLen? : Value → Option Int
  | .str s => some s.length
  | .list xs => some xs.length
  | .dict d => some d.length
  | _ => none

/-- `m in xs` for an integer `m` and a Python list: elementwise `==`, where
ints and bools compare numerically and nothing else equals an int. -/
def intIn (m : Int) (xs : List Value) : Bool :=
  xs.any (fun v => v.toNum? == some m)

/-- Substring test on char lists (`needle in haystack` for Python strings). -/
def hasSubList (n : List Char) : List Char → Bool
  | [] => n.isEmpty
  | c :: t => n.isPrefixOf (c :: t) || hasSubList n t

/-- Python substring containment `needle in hay`. -/
def strContains (needle hay : String) : Bool :=
  hasSubList needle.toList hay.toList

/-- Python `k in v` where `k` is a string and `v` an arbitrary value:
key test on dicts, substring on strings, elementwise `==` on lists, and a
`TypeError` (`none`) on other values. -/
def pyContainsStr? (v : Value) (k : String) : Option Bool :=
  match v with
  | .dict d => some (aHas d k)
  | .str s => some (strContains k s)
  | .list xs => some (xs.any (fun e => match e with | .str s => s = k | _ => false))
  | _ => none

/-! ## `database.py`: defaults, schema normalizer, file backend -/

/-- The entries of `get_default_db` (`database.py`). -/
def defaultEntries : Dict :=
  [ ("participants", .dict []),
    ("bonus_roles", .dict []),
    ("hashtag", .dict [("value", .null), ("locked", .bool false)]),
    ("tag", .dict [("enabled", .bool false), ("text", .null), ("quantity", .int 1)]),
    ("inscricao_channel", .null),
    ("button_message_id", .null),
    ("blacklist", .dict []),
    ("chat_lock", .dict [("enabled", .bool false), ("channel_id", .null)]),
    ("moderators", .list []),
    ("inscricoes_closed", .bool false) ]

/-- `get_default_db` (`database.py`): the default snapshot. -/
def get_default_db : Value := .dict defaultEntries

/-- One migration step of `_normalize_db`: copy `data[k]` over the default
when it is a dict (`isinstance(data[k], dict)` guard). -/
def copyIfDict (n : Dict) (d : Dict) (k : String) : Dict :=
  match aGet? d k with
  | some (.dict p) => aSet n k (.dict p)
  | _ => n

/-- One migration step of `_normalize_db`: copy `data[k]` over the default
when it is a list (`isinstance(data[k], list)` guard). -/
def copyIfList (n : Dict) (d : Dict) (k : String) : Dict :=
  match aGet? d k with
  | some (.list p) => aSet n k (.list p)
  | _ => n

/-- One migration step of `_normalize_db`: copy `data[k]` over the default
whenever the key is present (no type guard in the source). -/
def copyIfPresent (n : Dict) (d : Dict) (k : String) : Dict :=
  match aGet? d k with
  | some v => aSet n k v
  | none => n

/-- `normalized[k1][k2] = v` for a nested dict field. -/
def aSetIn (n : Dict) (k1 k2 : String) (v : Value) : Dict :=
  match aGet? n k1 with
  | some (.dict inner) => aSet n k1 (.dict (aSet inner k2 v))
  | _ => n

/-- The hashtag migration of `_normalize_db`: a bare string becomes the
`value` field; a dict contributes its `value` field when present. -/
def migrateHashtag (n : Dict) (d : Dict) : Dict :=
  match aGet? d "hashtag" with
  | some (.str s) => aSetIn n "hashtag" "value" (.str s)
  | some (.dict h) =>
      match aGet? h "value" with
      | some v => aSetIn n "hashtag" "value" v
      | none => n
  | _ => n

/-- The tag migration of `_normalize_db`: `normalized["tag"].update(data["tag"])`
merges the incoming tag dict onto the default one. -/
def migrateTag (n : Dict) (d : Dict) : Dict :=
  match aGet? d "tag" with
  | some (.dict t) =>
      match aGet? n "tag" with
      | some (.dict base) => aSet n "tag" (.dict (t.foldl (fun acc kv => aSet acc kv.1 kv.2) base))
      | _ => n
  | _ => n

/-- The legacy-migration body of `_normalize_db` (lines 43-79 of
`database.py`), applied to a non-canonical dict snapshot. -/
def migrate (d : Dict) : Dict :=
  let n := defaultEntries
  let n := copyIfDict n d "participants"
  let n := copyIfDict n d "bonus_roles"
  let n := copyIfDict n d "blacklist"
  let n := copyIfPresent n d "inscricao_channel"
  let n := copyIfPresent n d "button_message_id"
  let n := copyIfDict n d "chat_lock"
  let n := copyIfList n d "moderators"
  let n := copyIfPresent n d "inscricoes_closed"
  let n := migrateHashtag n d
  migrateTag n d

/-- Canonical-shape test of `_normalize_db` line 39: the `hashtag` field is a
dict containing a `value` key. -/
def isCanonical (v : Value) : Bool :=
  match v with
  | .dict d =>
      match aGet? d "hashtag" with
      | some (.dict h) => aHas h "value"
      | _ => false
  | _ => false

/-- `_normalize_db` (`database.py`).  Falsy input yields the default snapshot;
a canonical dict passes through unchanged; any other dict is migrated onto
the default.  Non-dict truthy input reproduces the source's behaviour of the
`"hashtag" in data` test: strings and lists either raise on the subsequent
`data.get` (`none`) or fall through the migration's guarded copies (every
copy raises inside the internal `try` and is swallowed), yielding the
default; ints and bools raise `TypeError` on `in` itself. -/
def _normalize_db (data : Value) : Option Value :=
  if data.truthy = false then some get_default_db
  else
    match data with
    | .dict d =>
        if isCanonical (.dict d) then some (.dict d)
        else some (.dict (migrate d))
    | .str s => if strContains "hashtag" s then none else some get_default_db
    | .list xs =>
        if xs.any (fun e => match e with | .str t => t = "hashtag" | _ => false)
        then none else some get_default_db
    | _ => none

/-- The persisted file: absent, unreadable/empty/invalid content, or a
decoded JSON document. -/
inductive FileState where
  | missing : FileState
  | corrupt : FileState
  | stored : Value → FileState

/-- `save_db` (`database.py`): writes the full snapshot (the pre-existing
backup copy does not affect the primary file's contents). -/
def save_db (data : Value) (_fs : FileState) : FileState := .stored data

/-- `load_db` (`database.py`): default snapshot when the file is missing,
empty or undecodable; otherwise the decoded document is normalized, any
exception from normalization being caught and replaced by the default. -/
def load_db (fs : FileState) : Value :=
  match fs with
  | .missing => get_default_db
  | .corrupt => get_default_db
  | .stored v =>
      match _normalize_db v with
      | some r => r
      | none => get_default_db

/-! ## `utils.py`: ticket calculation engine -/

/-- The member data `calculate_tickets` reads: the ids of the roles the
member holds (`[r.id for r in member.roles]`) and the four name fields.
`None` name fields are collapsed to `""`, exactly as the source's
`member.nick or ""` does. -/
structure Member where
  roles : List Int
  display_name : String
  nick : String
  global_name : String
  name : String

/-- `int(role_info.get("quantity", 1) or 1)` (`utils.py` line 65):
missing, `None`, zero and other falsy quantities coerce to 1;
a non-convertible value raises (`none`). -/
def roleQty? (ri : Dict) : Option Int :=
  pyToInt? (pyOr (aGetD ri "quantity" (.int 1)) (.int 1))

/-- `(role_info.get("abbreviation") or role_info.get("abreviation") or "").strip()`
(`utils.py` line 66); a truthy non-string in either field raises on `.strip()`. -/
def roleAbbr? (ri : Dict) : Option String :=
  match pyOr (pyOr (aGetD ri "abbreviation" .null) (aGetD ri "abreviation" .null)) (.str "") with
  | .str s => some (pyStrip s)
  | _ => none

/-- The bonus-role loop of `calculate_tickets` (`utils.py` lines 59-73):
record an entry, keyed by the stringified role id, for every bonus role the
member holds.  A held role whose info is not a dict, or whose quantity or
abbreviation cannot be coerced, raises (`none`). -/
def calcRoles (held : List Int) : List (Int × Value) → Dict → Option Dict
  | [], acc => some acc
  | (rid, ri) :: rest, acc =>
      if rid ∈ held then
        match ri with
        | .dict rd =>
            match roleQty? rd, roleAbbr? rd with
            | some q, some a =>
                calcRoles held rest
                  (aSet acc (toString rid)
                    (.dict [("quantity", .int q), ("abbreviation", .str a)]))
            | _, _ => none
        | _ => none
      else calcRoles held rest acc

/-- The TAG loop of `calculate_tickets` (`utils.py` lines 87-91): scan the
name fields in order and stop at the first non-empty field whose trimmed,
lower-cased text contains the search string. -/
def firstTagMatch (search : String) : List String → Bool
  | [] => false
  | f :: rest =>
      if f ≠ "" && strContains search (pyLower (pyStrip f)) then true
      else firstTagMatch search rest

/-- The `checks` list of `calculate_tickets` (`utils.py` lines 80-85):
display name, nickname, global name, account name, in that order. -/
def memberChecks (m : Member) : List String :=
  [m.display_name, m.nick, m.global_name, m.name]

/-- `calculate_tickets` (`utils.py`).  `tag_text` is the configured tag text
with `None` collapsed to `""` (the source stores `tag_text or ""` and treats
`None` and `""` identically in its truthiness test). -/
def calculate_tickets (member : Option Member) (bonus_roles : List (Int × Value))
    (tag_enabled : Bool) (tag_text : String) (tag_quantity : Int) : Option Value :=
  let base : Dict :=
    [ ("roles", .dict []),
      ("tag", .int 0),
      ("tag_text", .str tag_text),
      ("manual_tag", .int 0) ]
  match member with
  | none => some (.dict base)
  | some m =>
      match calcRoles m.roles bonus_roles [] with
      | none => none
      | some rolesD =>
          let t1 := aSet base "roles" (.dict rolesD)
          let t2 :=
            if tag_enabled && tag_text ≠ ""
                && firstTagMatch (pyLower (pyStrip tag_text)) (memberChecks m)
            then aSet t1 "tag" (.int tag_quantity)
            else t1
          some (.dict t2)

/-- The roles loop of `get_total_tickets` (`utils.py` lines 100-103). -/
def totalRoles : List (String × Value) → Int → Option Int
  | [], acc => some acc
  | (_, ri) :: rest, acc =>
      match ri with
      | .dict rd =>
          match roleQty? rd with
          | some q => totalRoles rest (acc + q)
          | none => none
      | _ => none

/-- The `if tickets.get("roles"):` guarded roles loop of `get_total_tickets`
(`utils.py` lines 100-103): a falsy `roles` value contributes 0, a truthy
non-dict one raises. -/
def rolesTotal? (td : Dict) : Option Int :=
  let rv := aGetD td "roles" (.dict [])
  if rv.truthy then
    match rv with
    | .dict rs => totalRoles rs 0
    | _ => none
  else some 0

/-- `int(tickets.get(k, 0) or 0)` (`utils.py` lines 106 and 109). -/
def fieldInt? (td : Dict) (k : String) : Option Int :=
  pyToInt? (pyOr (aGetD td k (.int 0)) (.int 0))

/-- `get_total_tickets` (`utils.py`): sum of role quantities (zero-ish
quantities coerced to 1), plus the automatic and manual tag fields (zero-ish
coerced to 0).  Raises (`none`) on a non-dict breakdown, a truthy non-dict
`roles` value, or non-coercible fields. -/
def get_total_tickets (tickets : Value) : Option Int :=
  match tickets with
  | .dict td =>
      match rolesTotal? td, fieldInt? td "tag", fieldInt? td "manual_tag" with
      | some rp, some tg, some mt => some (rp + tg + mt)
      | _, _, _ => none
  | _ => none

/-! ## `database.py`: ledger mutators

Each mutator acts on the in-memory snapshot dict `_db`.  `none` models an
uncaught Python exception; in every such case the source raises before any
mutation, so the in-memory snapshot is unchanged.  The `_save()` persistence
call after each mutation does not affect the snapshot. -/

/-- `set_hashtag`: `_db["hashtag"]["value"] = hashtag`. -/
def set_hashtag (db : Dict) (hashtag : String) : Option Dict :=
  match aGet? db "hashtag" with
  | some (.dict h) => some (aSet db "hashtag" (.dict (aSet h "value" (.str hashtag))))
  | _ => none

/-- `lock_hashtag`: `_db["hashtag"]["locked"] = True`. -/
def lock_hashtag (db : Dict) : Option Dict :=
  match aGet? db "hashtag" with
  | some (.dict h) => some (aSet db "hashtag" (.dict (aSet h "locked" (.bool true))))
  | _ => none

/-- `unlock_hashtag`: `_db["hashtag"]["locked"] = False`. -/
def unlock_hashtag (db : Dict) : Option Dict :=
  match aGet? db "hashtag" with
  | some (.dict h) => some (aSet db "hashtag" (.dict (aSet h "locked" (.bool false))))
  | _ => none

/-- The `if text:` guarded assignment of `set_tag`. -/
def tagTextStep (t1 : Dict) (text : Option String) : Dict :=
  match text with
  | some s => if s ≠ "" then aSet t1 "text" (.str s) else t1
  | none => t1

/-- The tag-dict update performed by `set_tag`: always sets `enabled`, sets
`text` only when truthy and `quantity` only when positive. -/
def setTagDict (t : Dict) (enabled : Bool) (text : Option String) (quantity : Int) : Dict :=
  if quantity > 0 then
    aSet (tagTextStep (aSet t "enabled" (.bool enabled)) text) "quantity" (.int quantity)
  else tagTextStep (aSet t "enabled" (.bool enabled)) text

/-- `set_tag`: always sets `enabled`; sets `text` only when truthy and
`quantity` only when positive. -/
def set_tag (db : Dict) (enabled : Bool) (text : Option String) (quantity : Int) : Option Dict :=
  match aGet? db "tag" with
  | some (.dict t) => some (aSet db "tag" (.dict (setTagDict t enabled text quantity)))
  | _ => none

/-- `add_bonus_role`: `_db["bonus_roles"][str(role_id)] = {...}`. -/
def add_bonus_role (db : Dict) (role_id : Int) (quantity : Int) (abbreviation : String) :
    Option Dict :=
  match aGet? db "bonus_roles" with
  | some (.dict b) =>
      some (aSet db "bonus_roles"
        (.dict (aSet b (toString role_id)
          (.dict [("quantity", .int quantity), ("abbreviation", .str abbreviation)]))))
  | _ => none

/-- `remove_bonus_role`: returns whether the role was present, deleting it
when it is. -/
def remove_bonus_role (db : Dict) (role_id : Int) : Option (Bool × Dict) :=
  match pyContainsStr? (aGetD db "bonus_roles" (.dict [])) (toString role_id) with
  | some true =>
      match aGet? db "bonus_roles" with
      | some (.dict b) => some (true, aSet db "bonus_roles" (.dict (aDel b (toString role_id))))
      | _ => none
  | some false => some (false, db)
  | none => none

/-- `add_participant`: stores the participant record; the registration
timestamp (`datetime.utcnow().isoformat()`) is an explicit argument. -/
def add_participant (db : Dict) (user_id : Int) (first_name last_name : String)
    (tickets : Value) (message_id : Int) (timestamp : String) : Option Dict :=
  match aGet? db "participants" with
  | some (.dict ps) =>
      some (aSet db "participants"
        (.dict (aSet ps (toString user_id)
          (.dict [ ("first_name", .str first_name),
                   ("last_name", .str last_name),
                   ("tickets", tickets),
                   ("message_id", .int message_id),
                   ("timestamp", .str timestamp) ]))))
  | _ => none

/-- `update_tickets`: replaces the stored breakdown of an existing
participant wholesale; silently does nothing for an unknown id. -/
def update_tickets (db : Dict) (user_id : Int) (tickets : Value) : Option Dict :=
  match pyContainsStr? (aGetD db "participants" (.dict [])) (toString user_id) with
  | some true =>
      match aGet? db "participants" with
      | some (.dict ps) =>
          match aGet? ps (toString user_id) with
          | some (.dict rec) =>
              some (aSet db "participants"
                (.dict (aSet ps (toString user_id) (.dict (aSet rec "tickets" tickets)))))
          | _ => none
      | _ => none
  | some false => some db
  | none => none

/-- `remove_participant`: deletes the record, returning whether it existed. -/
def remove_participant (db : Dict) (user_id : Int) : Option (Bool × Dict) :=
  match pyContainsStr? (aGetD db "participants" (.dict [])) (toString user_id) with
  | some true =>
      match aGet? db "participants" with
      | some (.dict ps) => some (true, aSet db "participants" (.dict (aDel ps (toString user_id))))
      | _ => none
  | some false => some (false, db)
  | none => none

/-- `add_manual_tag`: for a registered participant, creates the `manual_tag`
breakdown field at 0 when absent, then increments it by the signed delta;
a no-op for an unregistered id.  Raises (`none`) when the record has no
`tickets` dict or the stored `manual_tag` is non-numeric — in every raising
case the source raises before mutating the snapshot. -/
def add_manual_tag (db : Dict) (user_id : Int) (quantity : Int) : Option Dict :=
  match pyContainsStr? (aGetD db "participants" (.dict [])) (toString user_id) with
  | some true =>
      match aGet? db "participants" with
      | some (.dict ps) =>
          match aGet? ps (toString user_id) with
          | some (.dict rec) =>
              match aGet? rec "tickets" with
              | some (.dict td) =>
                  let td1 := if aHas td "manual_tag" then td else aSet td "manual_tag" (.int 0)
                  match (aGetD td1 "manual_tag" (.int 0)).toNum? with
                  | some n =>
                      some (aSet db "participants"
                        (.dict (aSet ps (toString user_id)
                          (.dict (aSet rec "tickets"
                            (.dict (aSet td1 "manual_tag" (.int (n + quantity)))))))))
                  | none => none
              | _ => none
          | _ => none
      | _ => none
  | some false => some db
  | none => none

/-- `clear_participants`: `_db["participants"] = {}`. -/
def clear_participants (db : Dict) : Dict :=
  aSet db "participants" (.dict [])

/-- `clear_all`: reset the whole snapshot to the defaults. -/
def clear_all (_db : Dict) : Dict := defaultEntries

/-- `add_to_blacklist`: stores the ban record (timestamp explicit). -/
def add_to_blacklist (db : Dict) (user_id : Int) (reason : String) (banned_by : Int)
    (timestamp : String) : Option Dict :=
  match aGet? db "blacklist" with
  | some (.dict bl) =>
      some (aSet db "blacklist"
        (.dict (aSet bl (toString user_id)
          (.dict [ ("reason", .str reason),
                   ("banned_by", .int banned_by),
                   ("timestamp", .str timestamp) ]))))
  | _ => none

/-- `remove_from_blacklist`. -/
def remove_from_blacklist (db : Dict) (user_id : Int) : Option (Bool × Dict) :=
  match pyContainsStr? (aGetD db "blacklist" (.dict [])) (toString user_id) with
  | some true =>
      match aGet? db "blacklist" with
      | some (.dict bl) => some (true, aSet db "blacklist" (.dict (aDel bl (toString user_id))))
      | _ => none
  | some false => some (false, db)
  | none => none

/-- `set_inscricao_channel`: a plain top-level assignment, always succeeds. -/
def set_inscricao_channel (db : Dict) (channel_id : Int) : Dict :=
  aSet db "inscricao_channel" (.int channel_id)

/-- `set_button_message_id`: overwrites the registry with a single id. -/
def set_button_message_id (db : Dict) (message_id : Int) : Dict :=
  aSet db "button_message_id" (.int message_id)

/-- The registry transformation of `add_button_message_id`
(`database.py` lines 309-319): a non-list value is first replaced by a
one-element list when truthy and by the empty list otherwise; then the id is
appended unless an equal element is already present. -/
def regAdd (r : Value) (message_id : Int) : Value :=
  let base : List Value :=
    match r with
    | .list xs => xs
    | v => if v.truthy then [v] else []
  .list (if intIn message_id base then base else base ++ [.int message_id])

/-- `add_button_message_id`: de-duplicated append to the registry. -/
def add_button_message_id (db : Dict) (message_id : Int) : Dict :=
  aSet db "button_message_id" (regAdd (aGetD db "button_message_id" .null) message_id)

/-- The `if channel_id:` guarded assignment of `set_chat_lock`. -/
def chatChannelStep (c1 : Dict) (channel_id : Option Int) : Dict :=
  match channel_id with
  | some cid => if cid ≠ 0 then aSet c1 "channel_id" (.int cid) else c1
  | none => c1

/-- The chat-lock-dict update of `set_chat_lock`. -/
def setChatLockDict (c : Dict) (enabled : Bool) (channel_id : Option Int) : Dict :=
  chatChannelStep (aSet c "enabled" (.bool enabled)) channel_id

/-- `set_chat_lock`: always sets `enabled`; sets `channel_id` only when the
argument is truthy. -/
def set_chat_lock (db : Dict) (enabled : Bool) (channel_id : Option Int) : Option Dict :=
  match aGet? db "chat_lock" with
  | some (.dict c) => some (aSet db "chat_lock" (.dict (setChatLockDict c enabled channel_id)))
  | _ => none

/-- Membership of an integer in the moderators value, as Python's `in`
evaluates it: numeric `==` over a list, key test over a dict (never matching
an int against the string keys), `TypeError` on other truthy values.  The
source reads the value via `_db.get("moderators", [])`, so an absent key
behaves as the empty list. -/
def modContains? (v : Option Value) (user_id : Int) : Option Bool :=
  match v with
  | none => some false
  | some (.list xs) => some (intIn user_id xs)
  | some (.dict _) => some false
  | some (.str _) => none
  | some _ => none

/-- `add_moderator`: appends the id when absent; `_db["moderators"].append`
raises when the key is missing or not a list. -/
def add_moderator (db : Dict) (user_id : Int) : Option Dict :=
  match modContains? (aGet? db "moderators") user_id with
  | some true => some db
  | some false =>
      match aGet? db "moderators" with
      | some (.list xs) => some (aSet db "moderators" (.list (xs ++ [.int user_id])))
      | _ => none
  | none => none

/-- `list.remove(x)`: drop the first element numerically equal to `x`. -/
def listRemoveInt (user_id : Int) : List Value → List Value
  | [] => []
  | v :: t => if v.toNum? == some user_id then t else v :: listRemoveInt user_id t

/-- `remove_moderator`: removes the id when present, reporting whether it was. -/
def remove_moderator (db : Dict) (user_id : Int) : Option (Bool × Dict) :=
  match modContains? (aGet? db "moderators") user_id with
  | some true =>
      match aGet? db "moderators" with
      | some (.list xs) => some (true, aSet db "moderators" (.list (listRemoveInt user_id xs)))
      | _ => none
  | some false => some (false, db)
  | none => none

/-- `set_inscricoes_closed`: a plain top-level assignment, always succeeds. -/
def set_inscricoes_closed (db : Dict) (closed : Bool) : Dict :=
  aSet db "inscricoes_closed" (.bool closed)

/-! ## `database.py`: aggregation engine (`get_statistics`) -/

/-- Per-role aggregate of `get_statistics`: holder count, tickets from the
role, and the abbreviation captured from the first holder seen. -/
structure RoleAgg where
  count : Int
  total_tickets : Int
  abbreviation : Value
deriving Repr

/-- Running accumulator of the `get_statistics` fold. -/
structure StAcc where
  total : Int
  withTag : Int
  byRole : List (String × RoleAgg)
deriving Repr

/-- The result record of `get_statistics`. -/
structure Stats where
  total_participants : Int
  total_tickets : Int
  participants_with_tag : Int
  tickets_by_role : List (String × RoleAgg)
  blacklist_count : Int
deriving Repr

/-- The per-role inner loop of `get_statistics` (`database.py` lines
398-409): initialise the aggregate on first sight of a role id, then add the
holder and its quantity (missing quantity defaults to 1, with no truthiness
coercion).  A non-dict role info or non-numeric quantity raises (`none`). -/
def statRoles (acc : StAcc) : List (String × Value) → Option StAcc
  | [] => some acc
  | (rid, ri) :: rest =>
      match ri with
      | .dict rd =>
          let br := if aHas acc.byRole rid then acc.byRole
                    else aSet acc.byRole rid ⟨0, 0, aGetD rd "abbreviation" (.str "")⟩
          match (aGetD rd "quantity" (.int 1)).toNum? with
          | some q =>
              statRoles
                ⟨acc.total + q, acc.withTag,
                 aUpd br rid (fun e => ⟨e.count + 1, e.total_tickets + q, e.abbreviation⟩)⟩
                rest
          | none => none
      | _ => none

/-- The per-participant body of the `get_statistics` fold (`database.py`
lines 384-409): a missing `tickets` field defaults to the empty dict; `base`
defaults to 1; `tag` and `manual_tag` default to 0; `roles` defaults to the
empty dict.  A non-dict participant record, a flat non-dict `tickets` value,
non-numeric fields or a non-dict `roles` value raise (`none`). -/
def statOne (acc : StAcc) (pdata : Value) : Option StAcc :=
  match pdata with
  | .dict pd =>
      match aGetD pd "tickets" (.dict []) with
      | .dict td =>
          match (aGetD td "base" (.int 1)).toNum?,
                (aGetD td "tag" (.int 0)).toNum?,
                (aGetD td "manual_tag" (.int 0)).toNum? with
          | some b, some tg, some mt =>
              let tq := tg + mt
              let acc1 : StAcc :=
                ⟨acc.total + b + tq, acc.withTag + (if 0 < tq then 1 else 0), acc.byRole⟩
              match aGetD td "roles" (.dict []) with
              | .dict rs => statRoles acc1 rs
              | _ => none
          | _, _, _ => none
      | _ => none
  | _ => none

/-- The participant fold of `get_statistics`. -/
def statFold (acc : StAcc) : List Value → Option StAcc
  | [] => some acc
  | p :: rest =>
      match statOne acc p with
      | some a => statFold a rest
      | none => none

/-- `get_statistics` (`database.py`): folds over all participant records and
sizes the blacklist.  `none` models an uncaught exception from any record. -/
def get_statistics (db : Dict) : Option Stats :=
  match aGetD db "participants" (.dict []) with
  | .dict ps =>
      match statFold ⟨0, 0, []⟩ (ps.map Prod.snd) with
      | some st =>
          match pyLen? (aGetD db "blacklist" (.dict [])) with
          | some bc => some ⟨(ps.length : Int), st.total, st.withTag, st.byRole, bc⟩
          | none => none
      | none => none
  | _ => none

/-! ## The ledger operation alphabet

Every mutating operation of `database.py`, with its arguments (timestamps
passed explicitly).  `applyOp` returns `none` when the source operation
raises; in every such case the source raises before mutating, so a run
leaves the snapshot unchanged on a raising operation. -/

inductive Op where
  | opSetHashtag (s : String)
  | opLockHashtag
  | opUnlockHashtag
  | opSetTag (enabled : Bool) (text : Option String) (quantity : Int)
  | opAddBonusRole (rid : Int) (q : Int) (abbr : String)
  | opRemoveBonusRole (rid : Int)
  | opAddParticipant (uid : Int) (fn ln : String) (tickets : Value) (mid : Int) (ts : String)
  | opUpdateTickets (uid : Int) (tickets : Value)
  | opRemoveParticipant (uid : Int)
  | opAddManualTag (uid : Int) (q : Int)
  | opClearParticipants
  | opClearAll
  | opAddToBlacklist (uid : Int) (reason : String) (by_ : Int) (ts : String)
  | opRemoveFromBlacklist (uid : Int)
  | opSetInscricaoChannel (cid : Int)
  | opSetButtonMessageId (mid : Int)
  | opAddButtonMessageId (mid : Int)
  | opSetChatLock (enabled : Bool) (cid : Option Int)
  | opAddModerator (uid : Int)
  | opRemoveModerator (uid : Int)
  | opSetInscricoesClosed (b : Bool)

/-- Apply one ledger operation to the snapshot (`none` = the operation
raised, which in the source happens before any mutation). -/
def applyOp (op : Op) (db : Dict) : Option Dict :=
  match op with
  | .opSetHashtag s => set_hashtag db s
  | .opLockHashtag => lock_hashtag db
  | .opUnlockHashtag => unlock_hashtag db
  | .opSetTag e t q => set_tag db e t q
  | .opAddBonusRole r q a => add_bonus_role db r q a
  | .opRemoveBonusRole r => (remove_bonus_role db r).map Prod.snd
  | .opAddParticipant u fn ln tk m ts => add_participant db u fn ln tk m ts
  | .opUpdateTickets u tk => update_tickets db u tk
  | .opRemoveParticipant u => (remove_participant db u).map Prod.snd
  | .opAddManualTag u q => add_manual_tag db u q
  | .opClearParticipants => some (clear_participants db)
  | .opClearAll => some (clear_all db)
  | .opAddToBlacklist u r b ts => add_to_blacklist db u r b ts
  | .opRemoveFromBlacklist u => (remove_from_blacklist db u).map Prod.snd
  | .opSetInscricaoChannel c => some (set_inscricao_channel db c)
  | .opSetButtonMessageId m => some (set_button_message_id db m)
  | .opAddButtonMessageId m => some (add_button_message_id db m)
  | .opSetChatLock e c => set_chat_lock db e c
  | .opAddModerator u => add_moderator db u
  | .opRemoveModerator u => (remove_moderator db u).map Prod.snd
  | .opSetInscricoesClosed b => some (set_inscricoes_closed db b)

/-- Run a sequence of operations; an operation that raises leaves the
snapshot as it was (the source raises before mutating). -/
def runOps (db : Dict) : List Op → Dict
  | [] => db
  | op :: rest => runOps ((applyOp op db).getD db) rest

/-- The canonical snapshot shape: the key `k` is bound to a dict. -/
def keyIsDict (db : Dict) (k : String) : Bool :=
  match aGet? db k with
  | some (.dict _) => true
  | _ => false

/-- The key `k` is bound to a list. -/
def keyIsList (db : Dict) (k : String) : Bool :=
  match aGet? db k with
  | some (.list _) => true
  | _ => false

/-- The key `k` is bound to a dict containing all the sub-keys `ks`. -/
def subKeys (db : Dict) (k : String) (ks : List String) : Bool :=
  match aGet? db k with
  | some (.dict h) => ks.all (aHas h)
  | _ => false

/-- Canonical snapshot shape (all ten top-level keys present;
`participants`, `bonus_roles`, `blacklist` dicts; `moderators` a list;
`hashtag`, `tag`, `chat_lock` dicts retaining their default sub-keys). -/
def canonShape (db : Dict) : Bool :=
  keyIsDict db "participants" && keyIsDict db "bonus_roles" && keyIsDict db "blacklist"
    && keyIsList db "moderators"
    && subKeys db "hashtag" ["value", "locked"]
    && subKeys db "tag" ["enabled", "text", "quantity"]
    && subKeys db "chat_lock" ["enabled", "channel_id"]
    && aHas db "inscricao_channel" && aHas db "button_message_id"
    && aHas db "inscricoes_closed"

/-! ## Basic association-list lemmas -/

@[simp] theorem aGet?_nil {α : Type} (k : String) :
    aGet? ([] : List (String × α)) k = none := rfl

@[simp] theorem aGet?_aSet_self {α : Type} (l : List (String × α)) (k : String) (v : α) :
    aGet? (aSet l k v) k = some v := by
  induction l with
  | nil => simp [aSet, aGet?]
  | cons kv t ih =>
      rcases kv with ⟨k0, w⟩
      by_cases h0 : k0 = k
      · simp [aSet, h0, aGet?]
      · simp [aSet, h0, aGet?, ih]

theorem aGet?_aSet_ne {α : Type} (l : List (String × α)) (k k' : String) (v : α)
    (h : ¬ k = k') : aGet? (aSet l k v) k' = aGet? l k' := by
  induction l with
  | nil => simp [aSet, aGet?, h]
  | cons kv t ih =>
      rcases kv with ⟨k0, w⟩
      by_cases h0 : k0 = k
      · subst h0; simp [aSet, aGet?, h]
      · simp [aSet, h0, aGet?, ih]

@[simp] theorem aHas_aSet_self {α : Type} (l : List (String × α)) (k : String) (v : α) :
    aHas (aSet l k v) k = true := by simp [aHas]

theorem aHas_aSet_ne {α : Type} (l : List (String × α)) (k k' : String) (v : α)
    (h : ¬ k = k') : aHas (aSet l k v) k' = aHas l k' := by
  simp [aHas, aGet?_aSet_ne _ _ _ _ h]

theorem aGet?_ne_nil {α : Type} (l : List (String × α)) (k : String) (v : α)
    (h : aGet? l k = some v) : l ≠ [] := by
  intro hnil; subst hnil; simp at h

/-! ## The schema normalizer: canonicity lemmas (claims C6 and C8) -/

theorem aGet?_copyIfDict (n d : Dict) (k k' : String) (h : ¬ k = k') :
    aGet? (copyIfDict n d k) k' = aGet? n k' := by
  unfold copyIfDict
  split
  · exact aGet?_aSet_ne _ _ _ _ h
  · rfl

theorem aGet?_copyIfList (n d : Dict) (k k' : String) (h : ¬ k = k') :
    aGet? (copyIfList n d k) k' = aGet? n k' := by
  unfold copyIfList
  split
  · exact aGet?_aSet_ne _ _ _ _ h
  · rfl

theorem aGet?_copyIfPresent (n d : Dict) (k k' : String) (h : ¬ k = k') :
    aGet? (copyIfPresent n d k) k' = aGet? n k' := by
  unfold copyIfPresent
  split
  · exact aGet?_aSet_ne _ _ _ _ h
  · rfl

theorem aGet?_migrateTag_hashtag (n d : Dict) :
    aGet? (migrateTag n d) "hashtag" = aGet? n "hashtag" := by
  unfold migrateTag
  split
  · split
    · exact aGet?_aSet_ne _ _ _ _ (by decide)
    · rfl
  · rfl

theorem isCanon_aSetIn_value (n : Dict) (v : Value)
    (hc : isCanonical (.dict n) = true) :
    isCanonical (.dict (aSetIn n "hashtag" "value" v)) = true := by
  simp only [isCanonical] at hc
  split at hc
  · rename_i h heq
    unfold aSetIn
    rw [heq]
    simp [isCanonical]
  · cases hc

theorem isCanon_migrateHashtag (n d : Dict) (hc : isCanonical (.dict n) = true) :
    isCanonical (.dict (migrateHashtag n d)) = true := by
  unfold migrateHashtag
  split
  · exact isCanon_aSetIn_value n _ hc
  · split
    · exact isCanon_aSetIn_value n _ hc
    · exact hc
  · exact hc

theorem isCanon_migrateTag (n d : Dict) (hc : isCanonical (.dict n) = true) :
    isCanonical (.dict (migrateTag n d)) = true := by
  simp only [isCanonical] at hc ⊢
  rw [aGet?_migrateTag_hashtag]
  exact hc

theorem isCanon_copyIfDict (n d : Dict) (k : String) (h : ¬ k = "hashtag")
    (hc : isCanonical (.dict n) = true) :
    isCanonical (.dict (copyIfDict n d k)) = true := by
  simp only [isCanonical] at hc ⊢
  rw [aGet?_copyIfDict n d k _ h]
  exact hc

theorem isCanon_copyIfList (n d : Dict) (k : String) (h : ¬ k = "hashtag")
    (hc : isCanonical (.dict n) = true) :
    isCanonical (.dict (copyIfList n d k)) = true := by
  simp only [isCanonical] at hc ⊢
  rw [aGet?_copyIfList n d k _ h]
  exact hc

theorem isCanon_copyIfPresent (n d : Dict) (k : String) (h : ¬ k = "hashtag")
    (hc : isCanonical (.dict n) = true) :
    isCanonical (.dict (copyIfPresent n d k)) = true := by
  simp only [isCanonical] at hc ⊢
  rw [aGet?_copyIfPresent n d k _ h]
  exact hc

theorem isCanon_default : isCanonical get_default_db = true := by decide

theorem isCanon_migrate (d : Dict) : isCanonical (.dict (migrate d)) = true := by
  unfold migrate
  exact isCanon_migrateTag _ _ (isCanon_migrateHashtag _ _
    (isCanon_copyIfPresent _ _ _ (by decide)
      (isCanon_copyIfList _ _ _ (by decide)
        (isCanon_copyIfDict _ _ _ (by decide)
          (isCanon_copyIfPresent _ _ _ (by decide)
            (isCanon_copyIfPresent _ _ _ (by decide)
              (isCanon_copyIfDict _ _ _ (by decide)
                (isCanon_copyIfDict _ _ _ (by decide)
                  (isCanon_copyIfDict _ _ _ (by decide) isCanon_default)))))))))

/-- A canonical value passes through `_normalize_db` unchanged. -/
theorem normalize_canonical (z : Value) (hc : isCanonical z = true) :
    _normalize_db z = some z := by
  cases z with
  | null => simp [isCanonical] at hc
  | bool b => simp [isCanonical] at hc
  | int n => simp [isCanonical] at hc
  | str s => simp [isCanonical] at hc
  | list xs => simp [isCanonical] at hc
  | dict d =>
      have hne : d ≠ [] := by
        simp only [isCanonical] at hc
        split at hc
        · rename_i h heq; exact aGet?_ne_nil _ _ _ heq
        · cases hc
      have ht : (Value.dict d).truthy = true := by
        simp [Value.truthy, hne]
      simp [_normalize_db, ht, hc]

/-- Everything `_normalize_db` returns is canonical. -/
theorem normalize_result_canonical (x y : Value) (h : _normalize_db x = some y) :
    isCanonical y = true := by
  unfold _normalize_db at h
  split at h
  · obtain rfl : get_default_db = y := by injection h
    exact isCanon_default
  · split at h
    · split at h
      · injection h with h2
        subst h2
        assumption
      · injection h with h2
        subst h2
        exact isCanon_migrate _
    · split at h
      · cases h
      · injection h with h2
        subst h2
        exact isCanon_default
    · split at h
      · cases h
      · injection h with h2
        subst h2
        exact isCanon_default
    · cases h

/-- C6: the schema normalizer is the identity on canonical snapshots — any
dict whose `hashtag` field is a dict containing a `value` key is returned
unchanged — and is idempotent: whenever `_normalize_db` returns a result,
normalizing that result returns it unchanged. -/
theorem C6_normalizer_idempotent_identity :
    (∀ (d h : Dict), aGet? d "hashtag" = some (.dict h) → aHas h "value" = true →
        _normalize_db (.dict d) = some (.dict d))
    ∧ (∀ x y : Value, _normalize_db x = some y → _normalize_db y = some y) := by
  constructor
  · intro d h hget hval
    exact normalize_canonical _ (by simp [isCanonical, hget, hval])
  · intro x y hxy
    exact normalize_canonical y (normalize_result_canonical x y hxy)

/-- Witness for C6: the default snapshot is canonical and fixed by
`_normalize_db`, and normalizing the falsy snapshot `None` yields the
default, which normalizes to itself. -/
theorem C6_normalizer_idempotent_identity_witness :
    _normalize_db (.dict defaultEntries) = some (.dict defaultEntries)
    ∧ _normalize_db get_default_db = some get_default_db :=
  ⟨C6_normalizer_idempotent_identity.1 defaultEntries _ rfl rfl,
   C6_normalizer_idempotent_identity.2 Value.null get_default_db rfl⟩

/-- C8: saving a canonical snapshot to the file backend and loading it back
returns the saved snapshot unchanged (the standard library's JSON
encode/decode pair is modelled as exact on JSON-representable documents). -/
theorem C8_save_load_roundtrip (s : Value) (fs : FileState)
    (hc : isCanonical s = true) : load_db (save_db s fs) = s := by
  simp [save_db, load_db, normalize_canonical s hc]

/-- Witness for C8: round trip of the default snapshot over a missing file. -/
theorem C8_save_load_roundtrip_witness :
    load_db (save_db get_default_db .missing) = get_default_db :=
  C8_save_load_roundtrip get_default_db .missing (by decide)

/-! ## Claim C1: role quantities in `calculate_tickets` -/

/-- The quantity recorded in a breakdown's `roles` mapping for the given
stringified role id. -/
def rolesQuantityOf (t : Value) (rid : String) : Option Value :=
  match t with
  | .dict td =>
      match aGet? td "roles" with
      | some (.dict rs) =>
          match aGet? rs rid with
          | some (.dict r) => aGet? r "quantity"
          | _ => none
      | _ => none
  | _ => none

/-- The `int(... or 1)` coercion on an integer quantity: 0 becomes 1. -/
theorem roleQty?_int (rd : Dict) (q : Int) (h : aGet? rd "quantity" = some (.int q)) :
    roleQty? rd = some (if q = 0 then 1 else q) := by
  unfold roleQty? aGetD pyOr
  rw [h]
  by_cases hq : q = 0
  · subst hq; simp [Value.truthy, pyToInt?]
  · simp [Value.truthy, hq, pyToInt?]

/-- `calcRoles` never touches a key that is not the stringification of a
listed role id. -/
theorem calcRoles_aGet_notmem (held : List Int) (bonus : List (Int × Value))
    (acc d : Dict) (k : String)
    (hk : ∀ p ∈ bonus, toString p.1 ≠ k)
    (h : calcRoles held bonus acc = some d) :
    aGet? d k = aGet? acc k := by
  induction bonus generalizing acc with
  | nil =>
      unfold calcRoles at h
      injection h with h2
      subst h2
      rfl
  | cons p rest ih =>
      rcases p with ⟨rid, ri⟩
      unfold calcRoles at h
      by_cases hh : rid ∈ held
      · rw [if_pos hh] at h
        split at h
        · split at h
          · rw [ih _ (fun p hp => hk p (List.mem_cons_of_mem _ hp)) h]
            exact aGet?_aSet_ne _ _ _ _ (hk _ (List.mem_cons_self _ _))
          · cases h
        · cases h
      · rw [if_neg hh] at h
        exact ih _ (fun p hp => hk p (List.mem_cons_of_mem _ hp)) h

/-- For a held bonus role with well-formed info and no duplicate stringified
ids, `calcRoles` records exactly the coerced quantity and abbreviation. -/
theorem calcRoles_mem (held : List Int) (bonus : List (Int × Value)) (acc d : Dict)
    (rid : Int) (rd : Dict) (q : Int) (a : String)
    (hnodup : (bonus.map fun p => toString p.1).Nodup)
    (hmem : (rid, Value.dict rd) ∈ bonus)
    (hq : roleQty? rd = some q) (ha : roleAbbr? rd = some a)
    (hheld : rid ∈ held)
    (h : calcRoles held bonus acc = some d) :
    aGet? d (toString rid) = some (.dict [("quantity", .int q), ("abbreviation", .str a)]) := by
  induction bonus generalizing acc with
  | nil => cases hmem
  | cons p rest ih =>
      rcases p with ⟨r0, i0⟩
      rcases List.mem_cons.mp hmem with hhead | htail
      · injection hhead with h1 h2
        subst h1
        subst h2
        unfold calcRoles at h
        rw [if_pos hheld] at h
        simp only [hq, ha] at h
        have hrest : ∀ p ∈ rest, toString p.1 ≠ toString rid := by
          intro p hp heq
          apply (List.nodup_cons.mp hnodup).1
          show toString rid ∈ List.map (fun p => toString p.1) rest
          rw [← heq]
          exact List.mem_map_of_mem (fun p => toString p.1) hp
        rw [calcRoles_aGet_notmem held rest _ d (toString rid) hrest h]
        exact aGet?_aSet_self _ _ _
      · unfold calcRoles at h
        by_cases hh : r0 ∈ held
        · rw [if_pos hh] at h
          split at h
          · split at h
            · exact ih _ (List.nodup_cons.mp hnodup).2 htail h
            · cases h
          · cases h
        · rw [if_neg hh] at h
          exact ih acc (List.nodup_cons.mp hnodup).2 htail h

/-- C1 (amended): in `calculate_tickets`, the quantity recorded for a held
bonus role is the configured integer quantity coerced through
`int(quantity or 1)`: a configured 0 is stored as 1, and any nonzero
configured quantity is stored exactly.  Quantities are therefore defaulted
during calculation precisely when they are zero-ish. -/
theorem C1_role_quantity_zero_coerced_to_one
    (m : Member) (bonus : List (Int × Value)) (enabled : Bool) (text : String)
    (tq : Int) (rid : Int) (rd : Dict) (q : Int) (a : String) (t : Value)
    (hnodup : (bonus.map fun p => toString p.1).Nodup)
    (hmem : (rid, Value.dict rd) ∈ bonus)
    (hq : aGet? rd "quantity" = some (.int q))
    (ha : roleAbbr? rd = some a)
    (hheld : rid ∈ m.roles)
    (h : calculate_tickets (some m) bonus enabled text tq = some t) :
    rolesQuantityOf t (toString rid) = some (.int (if q = 0 then 1 else q)) := by
  cases hcr : calcRoles m.roles bonus [] with
  | none =>
      simp only [calculate_tickets, hcr] at h
      exact Option.noConfusion h
  | some rolesD =>
      simp only [calculate_tickets, hcr] at h
      have hentry := calcRoles_mem m.roles bonus [] rolesD rid rd _ a hnodup hmem
        (roleQty?_int rd q hq) ha hheld hcr
      by_cases htag : (enabled && decide (text ≠ "")
          && firstTagMatch (pyLower (pyStrip text)) (memberChecks m)) = true
      · rw [if_pos htag] at h
        injection h with h2
        subst h2
        simp [rolesQuantityOf, aGet?_aSet_ne _ "tag" "roles" _ (by decide), hentry, aGet?]
      · rw [if_neg htag] at h
        injection h with h2
        subst h2
        simp [rolesQuantityOf, hentry, aGet?]

/-- The breakdown produced in the C1 witness scenario. -/
def wTicketsC1 : Value :=
  .dict [ ("roles", .dict [("5", .dict [("quantity", .int 1), ("abbreviation", .str "X")])]),
          ("tag", .int 0), ("tag_text", .str ""), ("manual_tag", .int 0) ]

/-- Witness for C1: a member holding role 5 configured with quantity 0 gets
the coerced quantity 1 recorded. -/
theorem C1_role_quantity_zero_coerced_to_one_witness :
    rolesQuantityOf wTicketsC1 (toString (5 : Int))
      = some (.int (if (0 : Int) = 0 then 1 else 0)) :=
  C1_role_quantity_zero_coerced_to_one
    ⟨[5], "a", "", "", ""⟩
    [(5, .dict [("quantity", .int 0), ("abbreviation", .str "X")])]
    false "" 1 5 [("quantity", .int 0), ("abbreviation", .str "X")] 0 "X" wTicketsC1
    (by decide) (List.mem_singleton_self _) (by rfl) (by decide)
    (List.mem_singleton_self _) (by rfl)

/-- C1 counterexample input: member holding role 5, configured quantity 0. -/
def cxQuantityC1 : Option Value :=
  (calculate_tickets (some ⟨[5], "a", "", "", ""⟩)
      [(5, .dict [("quantity", .int 0), ("abbreviation", .str "X")])]
      false "" 1).bind
    (fun t => rolesQuantityOf t "5")

/-- C1 counterexample: the quantity stored for a held role configured with
quantity 0 is 1, not the configured 0 — refuting the claim that quantities
are never defaulted during calculation. -/
theorem C1_counterexample :
    cxQuantityC1 = some (.int 1) ∧ cxQuantityC1 ≠ some (.int 0) := by
  refine ⟨rfl, ?_⟩
  intro hcontra
  rw [show cxQuantityC1 = some (Value.int 1) from rfl] at hcontra
  simp at hcontra

/-! ## Claim C4: `manual_tag` across recomputation -/

/-- The stored `manual_tag` of a participant's breakdown inside a snapshot. -/
def manualTagOf (db : Dict) (uid : String) : Option Value :=
  match aGet? db "participants" with
  | some (.dict ps) =>
      match aGet? ps uid with
      | some (.dict rec) =>
          match aGet? rec "tickets" with
          | some (.dict td) => aGet? td "manual_tag"
          | _ => none
      | _ => none
  | _ => none

/-- Every breakdown produced by `calculate_tickets` carries `manual_tag` 0
(`utils.py` line 52 hard-codes it). -/
theorem calculate_manual_tag_zero (member : Option Member) (bonus : List (Int × Value))
    (enabled : Bool) (text : String) (tq : Int) (t : Value)
    (h : calculate_tickets member bonus enabled text tq = some t) :
    ∃ td : Dict, t = .dict td ∧ aGet? td "manual_tag" = some (.int 0) := by
  cases member with
  | none =>
      simp only [calculate_tickets] at h
      injection h with h2
      exact ⟨_, h2.symm, rfl⟩
  | some m =>
      cases hcr : calcRoles m.roles bonus [] with
      | none =>
          simp only [calculate_tickets, hcr] at h
          exact Option.noConfusion h
      | some rolesD =>
          simp only [calculate_tickets, hcr] at h
          by_cases htag : (enabled && decide (text ≠ "")
              && firstTagMatch (pyLower (pyStrip text)) (memberChecks m)) = true
          · rw [if_pos htag] at h
            injection h with h2
            refine ⟨_, h2.symm, ?_⟩
            rw [aGet?_aSet_ne _ "tag" "manual_tag" _ (by decide),
              aGet?_aSet_ne _ "roles" "manual_tag" _ (by decide)]
            rfl
          · rw [if_neg htag] at h
            injection h with h2
            refine ⟨_, h2.symm, ?_⟩
            rw [aGet?_aSet_ne _ "roles" "manual_tag" _ (by decide)]
            rfl

/-- C4 (amended): recomputation resets `manual_tag` instead of preserving
it.  `calculate_tickets` always returns a breakdown with `manual_tag` 0, and
`update_tickets` replaces the stored breakdown wholesale, so for every
registered participant the recompute-and-store pipeline leaves `manual_tag`
equal to 0 — whatever value `m` it had before — unless the caller copies the
old value over explicitly. -/
theorem C4_recompute_resets_manual_tag
    (db ps rec : Dict) (uid : Int) (member : Option Member)
    (bonus : List (Int × Value)) (enabled : Bool) (text : String) (tq : Int) (t : Value)
    (hps : aGet? db "participants" = some (.dict ps))
    (hrec : aGet? ps (toString uid) = some (.dict rec))
    (hcalc : calculate_tickets member bonus enabled text tq = some t) :
    (update_tickets db uid t).bind (fun db2 => manualTagOf db2 (toString uid))
      = some (.int 0) := by
  obtain ⟨td, rfl, hmt⟩ := calculate_manual_tag_zero member bonus enabled text tq t hcalc
  have hupd : update_tickets db uid (.dict td)
      = some (aSet db "participants"
          (.dict (aSet ps (toString uid) (.dict (aSet rec "tickets" (.dict td)))))) := by
    simp [update_tickets, aGetD, hps, pyContainsStr?, aHas, hrec]
  rw [hupd]
  simp [manualTagOf, hmt]

/-- The snapshot of the C4 scenario: one participant whose stored breakdown
has `manual_tag` 3. -/
def dbC4 : Dict :=
  [("participants", .dict [("1", .dict [("tickets", .dict [("manual_tag", .int 3)])])])]

/-- The breakdown recomputed in the C4 scenario (member with no roles,
tag disabled). -/
def recomputedC4 : Value :=
  .dict [ ("roles", .dict []), ("tag", .int 0), ("tag_text", .str ""),
          ("manual_tag", .int 0) ]

/-- Witness for C4: recomputing and storing for the participant with stored
`manual_tag` 3 yields stored `manual_tag` 0. -/
theorem C4_recompute_resets_manual_tag_witness :
    (update_tickets dbC4 1 recomputedC4).bind
        (fun db2 => manualTagOf db2 (toString (1 : Int))) = some (.int 0) :=
  C4_recompute_resets_manual_tag dbC4
    [("1", .dict [("tickets", .dict [("manual_tag", .int 3)])])]
    [("tickets", .dict [("manual_tag", .int 3)])] 1
    (some ⟨[], "Bob", "", "", ""⟩) [] false "" 1 recomputedC4 rfl rfl rfl

/-- The stored `manual_tag` after recomputing and storing in the C4
scenario. -/
def cxManualC4 : Option Value :=
  (calculate_tickets (some ⟨[], "Bob", "", "", ""⟩) [] false "" 1).bind (fun t =>
    (update_tickets dbC4 1 t).bind (fun db2 => manualTagOf db2 "1"))

/-- C4 counterexample: a participant whose stored breakdown has
`manual_tag` 3 ends up with `manual_tag` 0 after recomputing with
`calculate_tickets` and storing with `update_tickets` — the claim that the
stored value 3 is preserved is false. -/
theorem C4_counterexample :
    cxManualC4 = some (.int 0) ∧ cxManualC4 ≠ some (.int 3) := by
  refine ⟨rfl, ?_⟩
  intro hcontra
  rw [show cxManualC4 = some (Value.int 0) from rfl] at hcontra
  simp at hcontra

/-! ## Claim C7: automatic tag matching -/

/-- The stored `tag` field of a breakdown. -/
def tagValueOf (t : Value) : Option Value :=
  match t with
  | .dict td => aGet? td "tag"
  | _ => none

/-- The claim's specification of the tag decision: the lower-cased, trimmed
tag text is compared as a substring against the member's name fields; if one
contains it, `tag` is the configured quantity, otherwise 0. -/
def claimTagSpec (text : String) (q : Int) (fields : List String) : Int :=
  if fields.any (fun f => strContains (pyLower (pyStrip text)) (pyLower (pyStrip f)))
  then q else 0

theorem firstTagMatch_eq_any (search : String) (fields : List String) :
    firstTagMatch search fields
      = fields.any (fun f => decide (f ≠ "") && strContains search (pyLower (pyStrip f))) := by
  induction fields with
  | nil => rfl
  | cons f rest ih =>
      unfold firstTagMatch
      cases hb : (decide (f ≠ "") && strContains search (pyLower (pyStrip f))) with
      | true =>
          rw [if_pos rfl, List.any_cons]
          show true = ((decide (f ≠ "") && strContains search (pyLower (pyStrip f)))
            || rest.any fun f => decide (f ≠ "") && strContains search (pyLower (pyStrip f)))
          rw [hb, Bool.true_or]
      | false =>
          rw [if_neg (by simp), ih, List.any_cons]
          show (rest.any fun f => decide (f ≠ "") && strContains search (pyLower (pyStrip f)))
            = ((decide (f ≠ "") && strContains search (pyLower (pyStrip f)))
              || rest.any fun f => decide (f ≠ "") && strContains search (pyLower (pyStrip f)))
          rw [hb, Bool.false_or]

theorem list_any_eq_of_fun_eq {l : List String} {p q : String → Bool}
    (h : ∀ a, p a = q a) : l.any p = l.any q := by
  induction l with
  | nil => rfl
  | cons a t ih => simp [List.any_cons, h a, ih]

theorem string_eq_empty_of_toList (s : String) (h : s.toList = []) : s = "" := by
  cases s with
  | mk l =>
      cases h
      rfl

theorem strContains_empty_hay (n : String) (h : n ≠ "") :
    strContains n "" = false := by
  unfold strContains hasSubList
  cases hn : n.toList with
  | nil => exact absurd (string_eq_empty_of_toList n hn) h
  | cons c t => simp [hn, List.isEmpty]

theorem pyLower_ne_empty (s : String) (h : s ≠ "") : pyLower s ≠ "" := by
  intro hcontra
  apply h
  apply string_eq_empty_of_toList
  have hdata : (s.toList.map Char.toLower) = [] := congrArg String.toList hcontra
  exact List.map_eq_nil_iff.mp hdata

/-- C7: when the tag feature is enabled and the (trimmed) tag text is
non-empty, the `tag` value `calculate_tickets` computes equals the claim's
specification — the lower-cased trimmed text compared as a substring
against the four name fields (display name, nickname, global name, account
name, which is the order the source scans with first-match short-circuit),
yielding the configured quantity on a match and 0 otherwise, regardless of
role holdings; and when the feature is disabled or the text is empty, the
`tag` value is 0. -/
theorem C7_tag_matching
    (m : Member) (bonus : List (Int × Value)) (enabled : Bool) (text : String)
    (tq : Int) (t : Value)
    (hcalc : calculate_tickets (some m) bonus enabled text tq = some t) :
    (enabled = true → pyStrip text ≠ "" →
        tagValueOf t = some (.int (claimTagSpec text tq (memberChecks m))))
    ∧ ((enabled = false ∨ text = "") → tagValueOf t = some (.int 0)) := by
  cases hcr : calcRoles m.roles bonus [] with
  | none =>
      simp only [calculate_tickets, hcr] at hcalc
      exact Option.noConfusion hcalc
  | some rolesD =>
      simp only [calculate_tickets, hcr] at hcalc
      constructor
      · intro hen htext
        subst hen
        have hne : text ≠ "" := fun hc => htext (by rw [hc]; rfl)
        have hsearch : pyLower (pyStrip text) ≠ "" := pyLower_ne_empty _ htext
        have hfm : firstTagMatch (pyLower (pyStrip text)) (memberChecks m)
            = (memberChecks m).any
                (fun f => strContains (pyLower (pyStrip text)) (pyLower (pyStrip f))) := by
          rw [firstTagMatch_eq_any]
          apply list_any_eq_of_fun_eq
          intro f
          by_cases hf : f = ""
          · subst hf
            rw [show pyLower (pyStrip "") = "" from rfl,
              strContains_empty_hay _ hsearch]
            simp
          · simp [hf]
        rw [decide_eq_true hne, hfm] at hcalc
        simp only [Bool.true_and] at hcalc
        cases hmatch : (memberChecks m).any
            (fun f => strContains (pyLower (pyStrip text)) (pyLower (pyStrip f))) with
        | true =>
            rw [hmatch, if_pos rfl] at hcalc
            injection hcalc with h2
            subst h2
            simp [tagValueOf, claimTagSpec, hmatch]
        | false =>
            rw [hmatch] at hcalc
            rw [if_neg (by simp)] at hcalc
            injection hcalc with h2
            subst h2
            simp only [tagValueOf]
            rw [aGet?_aSet_ne _ "roles" "tag" _ (by decide),
              show claimTagSpec text tq (memberChecks m) = 0 from by
                simp [claimTagSpec, hmatch]]
            rfl
      · intro hdis
        have hcond : (enabled && decide (text ≠ "")
            && firstTagMatch (pyLower (pyStrip text)) (memberChecks m)) = false := by
          rcases hdis with he | ht
          · subst he; simp
          · subst ht; simp
        rw [hcond] at hcalc
        rw [if_neg (by simp)] at hcalc
        injection hcalc with h2
        subst h2
        simp only [tagValueOf]
        rw [aGet?_aSet_ne _ "roles" "tag" _ (by decide)]
        rfl

/-- Witness for C7: a member whose nickname contains "vip" (enabled,
quantity 5) gets `tag` 5, and with the feature disabled the same member gets
`tag` 0. -/
theorem C7_tag_matching_witness :
    (tagValueOf (.dict [ ("roles", .dict []), ("tag", .int 5),
        ("tag_text", .str "vip"), ("manual_tag", .int 0) ])
      = some (.int (claimTagSpec "vip" 5 (memberChecks ⟨[], "Bob", "the vip one", "", "x"⟩))))
    ∧ (tagValueOf (.dict [ ("roles", .dict []), ("tag", .int 0),
        ("tag_text", .str "vip"), ("manual_tag", .int 0) ]) = some (.int 0)) :=
  ⟨(C7_tag_matching ⟨[], "Bob", "the vip one", "", "x"⟩ [] true "vip" 5 _ rfl).1
      rfl (by decide),
   (C7_tag_matching ⟨[], "Bob", "the vip one", "", "x"⟩ [] false "vip" 5 _ rfl).2
      (Or.inl rfl)⟩

/-! ## Claim C5: the button-message-id registry -/

/-- An integer id is present in the registry value: either the registry is a
list with a numerically equal element, or it is that very id stored as a
single (nonzero) scalar. -/
def idPresent (r : Value) (m : Int) : Prop :=
  (∃ xs, r = .list xs ∧ intIn m xs = true) ∨ (r = .int m ∧ m ≠ 0)

theorem intIn_append (m : Int) (xs ys : List Value) :
    intIn m (xs ++ ys) = (intIn m xs || intIn m ys) := by
  simp [intIn, List.any_append]

theorem regAdd_preserves_idPresent (r : Value) (m mid : Int) (h : idPresent r m) :
    idPresent (regAdd r mid) m := by
  rcases h with ⟨xs, rfl, hin⟩ | ⟨rfl, hm⟩
  · left
    by_cases hc : intIn mid xs = true
    · exact ⟨xs, by simp [regAdd, hc], hin⟩
    · refine ⟨xs ++ [.int mid], by simp [regAdd, hc], ?_⟩
      rw [intIn_append, hin, Bool.true_or]
  · left
    by_cases hc : intIn mid [Value.int m] = true
    · refine ⟨[.int m], ?_, ?_⟩
      · simp [regAdd, Value.truthy, hm, hc]
      · simp [intIn, Value.toNum?]
    · refine ⟨[.int m, .int mid], ?_, ?_⟩
      · simp [regAdd, Value.truthy, hm, hc]
      · simp [intIn, Value.toNum?]

/-- C5 (amended): `add_button_message_id` alone grows the registry
monotonically: a stored nonzero single id is promoted to a list when a
different id is added (and to the singleton list when the same id is
re-added), adding an id already present in a list registry leaves the
registry unchanged (de-duplicated by numeric value), and across every
sequence of add operations no present id is ever removed.
`set_button_message_id`, by contrast, overwrites the registry wholesale with
a single id and can remove previously stored ids, and a stored falsy single
id (0 or None) is dropped at promotion time. -/
theorem C5_registry_add_monotone :
    (∀ j mid : Int, j ≠ 0 → mid ≠ j → regAdd (.int j) mid = .list [.int j, .int mid])
    ∧ (∀ j : Int, j ≠ 0 → regAdd (.int j) j = .list [.int j])
    ∧ (∀ (xs : List Value) (mid : Int), intIn mid xs = true →
        regAdd (.list xs) mid = .list xs)
    ∧ (∀ (mids : List Int) (r : Value) (m : Int), idPresent r m →
        idPresent (mids.foldl regAdd r) m) := by
  refine ⟨?_, ?_, ?_, ?_⟩
  · intro j mid hj hmid
    simp [regAdd, Value.truthy, hj, intIn, Value.toNum?, Ne.symm hmid]
  · intro j hj
    simp [regAdd, Value.truthy, hj, intIn, Value.toNum?]
  · intro xs mid h
    simp [regAdd, h]
  · intro mids
    induction mids with
    | nil => intro r m h; exact h
    | cons mid rest ih =>
        intro r m h
        exact ih _ _ (regAdd_preserves_idPresent r m mid h)

/-- Witness for C5: promoting the stored id 4 by adding 9 yields the
two-element list, and re-adding 9 to that list leaves it unchanged. -/
theorem C5_registry_add_monotone_witness :
    regAdd (.int 4) 9 = .list [.int 4, .int 9]
    ∧ regAdd (.list [.int 4, .int 9]) 9 = .list [.int 4, .int 9] :=
  ⟨C5_registry_add_monotone.1 4 9 (by decide) (by decide),
   C5_registry_add_monotone.2.2.1 [.int 4, .int 9] 9 (by decide)⟩

/-- The registry after `set_button_message_id(1)` then
`set_button_message_id(2)` from the default snapshot. -/
def cxRegistryC5 : Value :=
  aGetD (set_button_message_id (set_button_message_id defaultEntries 1) 2)
    "button_message_id" .null

/-- C5 counterexample: `set_button_message_id` is a registry operation that
removes a previously stored id — after storing id 1 and then id 2, the
registry is the single id 2 and id 1 is gone, refuting "no id that was
previously stored is ever removed" over sequences that include
`set_button_message_id`. -/
theorem C5_counterexample :
    cxRegistryC5 = .int 2 ∧ ¬ idPresent cxRegistryC5 1 := by
  constructor
  · rfl
  · rw [show cxRegistryC5 = .int 2 from rfl]
    intro h
    rcases h with ⟨xs, hxs, _⟩ | ⟨hv, _⟩
    · exact Value.noConfusion hxs
    · injection hv with h2
      exact absurd h2 (by decide)

/-! ## Claim C9: `add_manual_tag` -/

/-- The numeric value the source reads for `manual_tag` after the
create-at-zero step: 0 when the field is absent, the numeric coercion of the
stored value otherwise. -/
def manualVal (td : Dict) : Option Int :=
  match aGet? td "manual_tag" with
  | none => some 0
  | some v => v.toNum?

/-- The stored `tickets` value of a participant. -/
def ticketsValueOf (db : Dict) (uid : String) : Option Value :=
  match aGet? db "participants" with
  | some (.dict ps) =>
      match aGet? ps uid with
      | some (.dict rec) => aGet? rec "tickets"
      | _ => none
  | _ => none

theorem aGetD_aSet_ne (l : Dict) (k k' : String) (v dflt : Value)
    (h : ¬ k = k') : aGetD (aSet l k v) k' dflt = aGetD l k' dflt := by
  simp [aGetD, aGet?_aSet_ne _ _ _ _ h]

theorem pyToInt?_pyOr_int (k : Int) :
    pyToInt? (pyOr (.int k) (.int 0)) = some k := by
  by_cases hk : k = 0
  · subst hk; simp [pyOr, Value.truthy, pyToInt?]
  · simp [pyOr, Value.truthy, hk, pyToInt?]

theorem pyToInt?_pyOr_of_toNum (v : Value) (n : Int) (h : v.toNum? = some n) :
    pyToInt? (pyOr v (.int 0)) = some n := by
  cases v with
  | int k =>
      simp only [Value.toNum?, Option.some.injEq] at h
      subst h
      exact pyToInt?_pyOr_int k
  | bool b =>
      simp only [Value.toNum?, Option.some.injEq] at h
      subst h
      cases b with
      | true => simp [pyOr, Value.truthy, pyToInt?]
      | false => simp [pyOr, Value.truthy, pyToInt?]
  | null => simp [Value.toNum?] at h
  | str s => simp [Value.toNum?] at h
  | list xs => simp [Value.toNum?] at h
  | dict d => simp [Value.toNum?] at h

/-- The create-at-zero step of `add_manual_tag`. -/
def ensureManual (td : Dict) : Dict :=
  if aHas td "manual_tag" then td else aSet td "manual_tag" (.int 0)

theorem aGet?_ensureManual_ne (td : Dict) (k : String) (h : ¬ "manual_tag" = k) :
    aGet? (ensureManual td) k = aGet? td k := by
  unfold ensureManual
  split
  · rfl
  · exact aGet?_aSet_ne _ _ _ _ h

/-- Evaluation of `add_manual_tag` on a registered participant whose record
and breakdown are dicts and whose stored `manual_tag` (if any) is numeric. -/
theorem add_manual_tag_eq (db ps rec td : Dict) (uid q n : Int)
    (hps : aGet? db "participants" = some (.dict ps))
    (hrec : aGet? ps (toString uid) = some (.dict rec))
    (htd : aGet? rec "tickets" = some (.dict td))
    (hman : manualVal td = some n) :
    add_manual_tag db uid q
      = some (aSet db "participants" (.dict (aSet ps (toString uid)
          (.dict (aSet rec "tickets"
            (.dict (aSet (ensureManual td) "manual_tag" (.int (n + q))))))))) := by
  have haHas : aHas ps (toString uid) = true := by simp [aHas, hrec]
  by_cases hhas : aHas td "manual_tag" = true
  · obtain ⟨v, hv⟩ : ∃ v, aGet? td "manual_tag" = some v := by
      simpa [aHas, Option.isSome_iff_exists] using hhas
    have hvn : v.toNum? = some n := by
      simpa [manualVal, hv] using hman
    simp [add_manual_tag, aGetD, hps, pyContainsStr?, haHas, hrec, htd,
      hhas, hv, hvn, ensureManual]
  · have hnone : aGet? td "manual_tag" = none := by
      simpa [aHas, Option.isSome_iff_exists, Option.eq_none_iff_forall_not_mem]
        using hhas
    have hn0 : n = 0 := by
      have := hman
      simp [manualVal, hnone] at this
      exact this.symm
    subst hn0
    simp [add_manual_tag, aGetD, hps, pyContainsStr?, haHas, hrec, htd,
      hhas, hnone, ensureManual, Value.toNum?]

/-- C9: `add_manual_tag` increments a registered participant's `manual_tag`
by the signed delta, creating the field at 0 when absent; the breakdown
total moves by exactly the delta; and the operation is a no-op (state
unchanged) when the participant id is not registered. -/
theorem C9_add_manual_tag :
    (∀ (db ps rec td : Dict) (uid q n : Int),
        aGet? db "participants" = some (.dict ps) →
        aGet? ps (toString uid) = some (.dict rec) →
        aGet? rec "tickets" = some (.dict td) →
        manualVal td = some n →
        ((add_manual_tag db uid q).bind
            (fun db2 => manualTagOf db2 (toString uid)) = some (.int (n + q))
         ∧ ∀ T : Int, get_total_tickets (.dict td) = some T →
             (add_manual_tag db uid q).bind (fun db2 =>
               (ticketsValueOf db2 (toString uid)).bind get_total_tickets)
               = some (T + q)))
    ∧ (∀ (db ps : Dict) (uid q : Int),
        aGet? db "participants" = some (.dict ps) →
        aHas ps (toString uid) = false →
        add_manual_tag db uid q = some db)
    ∧ (∀ (db : Dict) (uid q : Int),
        aGet? db "participants" = none →
        add_manual_tag db uid q = some db) := by
  refine ⟨?_, ?_, ?_⟩
  · intro db ps rec td uid q n hps hrec htd hman
    have heq := add_manual_tag_eq db ps rec td uid q n hps hrec htd hman
    constructor
    · rw [heq]
      simp [manualTagOf]
    · intro T hT
      rw [heq]
      have htv : ticketsValueOf
          (aSet db "participants" (.dict (aSet ps (toString uid)
            (.dict (aSet rec "tickets"
              (.dict (aSet (ensureManual td) "manual_tag" (.int (n + q)))))))))
          (toString uid)
          = some (.dict (aSet (ensureManual td) "manual_tag" (.int (n + q)))) := by
        simp [ticketsValueOf]
      simp only [Option.some_bind, htv]
      have hroles : rolesTotal? (aSet (ensureManual td) "manual_tag" (.int (n + q)))
          = rolesTotal? td := by
        unfold rolesTotal?
        rw [aGetD_aSet_ne _ _ _ _ _ (by decide)]
        simp [aGetD, aGet?_ensureManual_ne td "roles" (by decide)]
      have htag : fieldInt? (aSet (ensureManual td) "manual_tag" (.int (n + q))) "tag"
          = fieldInt? td "tag" := by
        unfold fieldInt?
        rw [aGetD_aSet_ne _ _ _ _ _ (by decide)]
        simp [aGetD, aGet?_ensureManual_ne td "tag" (by decide)]
      have hmanNew : fieldInt? (aSet (ensureManual td) "manual_tag" (.int (n + q)))
          "manual_tag" = some (n + q) := by
        unfold fieldInt?
        simp [aGetD, pyToInt?_pyOr_int]
      have hmanOld : fieldInt? td "manual_tag" = some n := by
        unfold fieldInt? manualVal at *
        cases hmv : aGet? td "manual_tag" with
        | none =>
            rw [hmv] at hman
            have : n = 0 := by simpa using hman.symm
            subst this
            simp [aGetD, hmv, pyOr, Value.truthy, pyToInt?]
        | some v =>
            rw [hmv] at hman
            simp only [aGetD, hmv, Option.getD_some]
            exact pyToInt?_pyOr_of_toNum v n hman
      simp only [get_total_tickets, hroles, htag, hmanNew] at hT ⊢
      split at hT
      · rename_i rp tg mt hrp htg hmt
        rw [hmanOld] at hmt
        injection hmt with hmt
        subst hmt
        rw [hrp, htg]
        injection hT with hT
        simp only [Option.some.injEq]
        omega
      · exact Option.noConfusion hT
  · intro db ps uid q hps habs
    simp [add_manual_tag, aGetD, hps, pyContainsStr?, habs]
  · intro db uid q hps
    simp [add_manual_tag, aGetD, hps, pyContainsStr?, aHas]

/-- The snapshot of the C9 witness: one registered participant (id 7) whose
breakdown has no `manual_tag` field yet. -/
def dbW9 : Dict :=
  [("participants", .dict [("7", .dict
    [("first_name", .str "Ana"), ("last_name", .str "Silva"),
     ("tickets", .dict [("roles", .dict []), ("tag", .int 0)])])])]

/-- The C9 witness snapshot after `add_manual_tag(7, 3)`. -/
def dbW9after : Dict :=
  [("participants", .dict [("7", .dict
    [("first_name", .str "Ana"), ("last_name", .str "Silva"),
     ("tickets", .dict [("roles", .dict []), ("tag", .int 0),
       ("manual_tag", .int 3)])])])]

/-- Witness for C9: adding 3 creates `manual_tag` at 0 and stores 3; adding
-1 on the resulting state stores 2 and moves the breakdown total from 3 to
2; an unregistered id (8) is a no-op. -/
theorem C9_add_manual_tag_witness :
    ((add_manual_tag dbW9 7 3).bind
        (fun db2 => manualTagOf db2 (toString (7 : Int))) = some (.int 3))
    ∧ ((add_manual_tag dbW9after 7 (-1)).bind
        (fun db2 => manualTagOf db2 (toString (7 : Int))) = some (.int 2))
    ∧ ((add_manual_tag dbW9after 7 (-1)).bind (fun db2 =>
        (ticketsValueOf db2 (toString (7 : Int))).bind get_total_tickets)
        = some (3 + (-1)))
    ∧ add_manual_tag dbW9 8 5 = some dbW9 := by
  have h1 := (C9_add_manual_tag.1 dbW9
    [("7", .dict [("first_name", .str "Ana"), ("last_name", .str "Silva"),
      ("tickets", .dict [("roles", .dict []), ("tag", .int 0)])])]
    [("first_name", .str "Ana"), ("last_name", .str "Silva"),
      ("tickets", .dict [("roles", .dict []), ("tag", .int 0)])]
    [("roles", .dict []), ("tag", .int 0)] 7 3 0 rfl rfl rfl rfl).1
  have h2 := C9_add_manual_tag.1 dbW9after
    [("7", .dict [("first_name", .str "Ana"), ("last_name", .str "Silva"),
      ("tickets", .dict [("roles", .dict []), ("tag", .int 0),
        ("manual_tag", .int 3)])])]
    [("first_name", .str "Ana"), ("last_name", .str "Silva"),
      ("tickets", .dict [("roles", .dict []), ("tag", .int 0),
        ("manual_tag", .int 3)])]
    [("roles", .dict []), ("tag", .int 0), ("manual_tag", .int 3)]
    7 (-1) 3 rfl rfl rfl rfl
  have h4 := C9_add_manual_tag.2.1 dbW9
    [("7", .dict [("first_name", .str "Ana"), ("last_name", .str "Silva"),
      ("tickets", .dict [("roles", .dict []), ("tag", .int 0)])])]
    8 5 rfl rfl
  exact ⟨by simpa using h1, by simpa using h2.1, h2.2 3 rfl, h4⟩

/-! ## Claim C2: totality of `get_statistics` over legacy shapes -/

theorem aGet?_eq_none_of_aHas_false {α : Type} (l : List (String × α)) (k : String)
    (h : aHas l k = false) : aGet? l k = none := by
  cases hx : aGet? l k with
  | none => rfl
  | some v => simp [aHas, hx] at h

/-- Role infos `get_statistics` can process: a dict whose `quantity`, when
present, is numeric (missing quantity defaults to 1). -/
def wfRoleInfo (v : Value) : Bool :=
  match v with
  | .dict rd => (aGetD rd "quantity" (.int 1)).toNum?.isSome
  | _ => false

/-- Breakdown dicts `get_statistics` can process: `base`, `tag` and
`manual_tag` numeric when present, and `roles` (when present) a dict of
processable role infos. -/
def wfTicketsDict (td : Dict) : Bool :=
  (aGetD td "base" (.int 1)).toNum?.isSome
  && (aGetD td "tag" (.int 0)).toNum?.isSome
  && (aGetD td "manual_tag" (.int 0)).toNum?.isSome
  && (match aGetD td "roles" (.dict []) with
      | .dict rs => rs.all (fun p => wfRoleInfo p.2)
      | _ => false)

/-- Participant records `get_statistics` can process: a dict whose
`tickets` field is absent (defaulting to the empty dict) or a processable
breakdown dict — but not a flat scalar. -/
def wfParticipant (v : Value) : Bool :=
  match v with
  | .dict pd =>
      match aGetD pd "tickets" (.dict []) with
      | .dict td => wfTicketsDict td
      | _ => false
  | _ => false

theorem statRoles_total (rs : List (String × Value)) (acc : StAcc)
    (h : rs.all (fun p => wfRoleInfo p.2) = true) :
    (statRoles acc rs).isSome = true := by
  induction rs generalizing acc with
  | nil => rfl
  | cons p rest ih =>
      rcases p with ⟨rid, ri⟩
      rw [List.all_cons] at h
      have h1 : wfRoleInfo ri = true := (Bool.and_eq_true _ _ ▸ h).1
      have h2 := (Bool.and_eq_true _ _ ▸ h).2
      cases ri with
      | dict rd =>
          obtain ⟨q, hq⟩ : ∃ q, (aGetD rd "quantity" (.int 1)).toNum? = some q := by
            simpa [wfRoleInfo, Option.isSome_iff_exists] using h1
          simp only [statRoles, hq]
          exact ih _ h2
      | null => simp [wfRoleInfo] at h1
      | bool b => simp [wfRoleInfo] at h1
      | int n => simp [wfRoleInfo] at h1
      | str s => simp [wfRoleInfo] at h1
      | list xs => simp [wfRoleInfo] at h1

theorem statOne_total (acc : StAcc) (p : Value) (h : wfParticipant p = true) :
    (statOne acc p).isSome = true := by
  cases p with
  | dict pd =>
      simp only [wfParticipant] at h
      cases htv : aGetD pd "tickets" (.dict []) with
      | dict td =>
          simp only [htv] at h
          rw [show wfTicketsDict td
              = ((aGetD td "base" (.int 1)).toNum?.isSome
                && (aGetD td "tag" (.int 0)).toNum?.isSome
                && (aGetD td "manual_tag" (.int 0)).toNum?.isSome
                && (match aGetD td "roles" (.dict []) with
                    | .dict rs => rs.all (fun p => wfRoleInfo p.2)
                    | _ => false)) from rfl,
            Bool.and_eq_true, Bool.and_eq_true, Bool.and_eq_true] at h
          obtain ⟨⟨⟨hb, ht⟩, hm⟩, hr⟩ := h
          obtain ⟨b, hbv⟩ := Option.isSome_iff_exists.mp hb
          obtain ⟨tg, htgv⟩ := Option.isSome_iff_exists.mp ht
          obtain ⟨mt, hmv⟩ := Option.isSome_iff_exists.mp hm
          cases hrv : aGetD td "roles" (.dict []) with
          | dict rs =>
              rw [hrv] at hr
              simp only [statOne, htv, hbv, htgv, hmv, hrv]
              exact statRoles_total rs _ hr
          | null => rw [hrv] at hr; cases hr
          | bool c => rw [hrv] at hr; cases hr
          | int n => rw [hrv] at hr; cases hr
          | str s => rw [hrv] at hr; cases hr
          | list xs => rw [hrv] at hr; cases hr
      | null => simp only [htv] at h; exact Bool.noConfusion h
      | bool b => simp only [htv] at h; exact Bool.noConfusion h
      | int n => simp only [htv] at h; exact Bool.noConfusion h
      | str s => simp only [htv] at h; exact Bool.noConfusion h
      | list xs => simp only [htv] at h; exact Bool.noConfusion h
  | null => cases h
  | bool b => cases h
  | int n => cases h
  | str s => cases h
  | list xs => cases h

theorem statFold_total (ps : List Value) (acc : StAcc)
    (h : ∀ p ∈ ps, wfParticipant p = true) :
    (statFold acc ps).isSome = true := by
  induction ps generalizing acc with
  | nil => rfl
  | cons p rest ih =>
      have hp := h p (List.mem_cons_self _ _)
      obtain ⟨a, ha⟩ := Option.isSome_iff_exists.mp (statOne_total acc p hp)
      unfold statFold
      rw [ha]
      exact ih _ (fun p hp2 => h p (List.mem_cons_of_mem _ hp2))

/-- C2 (amended): `get_statistics` is total over snapshots whose participant
records are dicts with a missing `tickets` field, a missing `roles`
sub-mapping, or otherwise well-formed breakdown dicts (defensive `.get`
defaults cover those legacy shapes) — but NOT over a `tickets` field stored
as a flat scalar, which raises `AttributeError` on `tickets.get`. -/
theorem C2_statistics_total_on_dict_shapes (db ps : Dict)
    (hps : aGetD db "participants" (.dict []) = .dict ps)
    (hwf : ∀ p ∈ ps.map Prod.snd, wfParticipant p = true)
    (hbl : (pyLen? (aGetD db "blacklist" (.dict []))).isSome = true) :
    (get_statistics db).isSome = true := by
  obtain ⟨st, hst⟩ := Option.isSome_iff_exists.mp
    (statFold_total (ps.map Prod.snd) ⟨0, 0, []⟩ hwf)
  obtain ⟨bc, hbc⟩ := Option.isSome_iff_exists.mp hbl
  simp only [get_statistics, hps, hst, hbc, Option.isSome_some]

/-- The C2 witness snapshot: one record without `tickets`, one whose
breakdown lacks `roles`, one fully structured; a one-entry blacklist. -/
def dbW2 : Dict :=
  [ ("participants", .dict
      [ ("1", .dict [("first_name", .str "A")]),
        ("2", .dict [("tickets", .dict [("tag", .int 2)])]),
        ("3", .dict [("tickets", .dict
          [("roles", .dict [("9", .dict [("quantity", .int 2), ("abbreviation", .str "S")])]),
           ("tag", .int 0), ("manual_tag", .int 1)])]) ]),
    ("blacklist", .dict [("4", .dict [("reason", .str "spam")])]) ]

/-- Witness for C2: the heterogeneous snapshot above produces a statistics
result. -/
theorem C2_statistics_total_on_dict_shapes_witness :
    (get_statistics dbW2).isSome = true :=
  C2_statistics_total_on_dict_shapes dbW2
    [ ("1", .dict [("first_name", .str "A")]),
      ("2", .dict [("tickets", .dict [("tag", .int 2)])]),
      ("3", .dict [("tickets", .dict
        [("roles", .dict [("9", .dict [("quantity", .int 2), ("abbreviation", .str "S")])]),
         ("tag", .int 0), ("manual_tag", .int 1)])]) ]
    rfl (by decide) (by decide)

/-- The C2 counterexample snapshot: a participant whose `tickets` field is
the flat scalar 5. -/
def cxDbC2 : Dict :=
  [("participants", .dict [("1", .dict [("tickets", .int 5)])]),
   ("blacklist", .dict [])]

/-- C2 counterexample: on a snapshot storing `tickets` as a flat scalar,
`get_statistics` raises (`tickets.get("base", 1)` on an int) instead of
coercing — refuting totality over flat-scalar ticket records. -/
theorem C2_counterexample :
    get_statistics cxDbC2 = none
    ∧ ticketsValueOf cxDbC2 "1" = some (.int 5) :=
  ⟨rfl, rfl⟩

/-! ## Claim C3: the aggregate total versus per-breakdown totals -/

/-- Role infos as `calculate_tickets` stores them: a dict whose `quantity`
is a nonzero integer (or absent, in which case both the aggregate and
`get_total_tickets` default it to 1 identically). -/
def nzRoleInfo (v : Value) : Bool :=
  match v with
  | .dict rd =>
      match aGet? rd "quantity" with
      | some (.int q) => q != 0
      | none => true
      | some _ => false
  | _ => false

/-- The sum of role quantities as both engines read them (missing quantity
counts as 1). -/
def rolesSum : List (String × Value) → Int
  | [] => 0
  | (_, ri) :: rest =>
      (match ri with
       | .dict rd => ((aGetD rd "quantity" (.int 1)).toNum?).getD 0
       | _ => 0) + rolesSum rest

/-- Structured ticket breakdowns (the shape `calculate_tickets` produces):
a dict with a `roles` dict of nonzero-quantity role infos, integer `tag` and
`manual_tag`, and no legacy `base` field. -/
def structuredBreakdown (v : Value) : Bool :=
  match v with
  | .dict td =>
      (match aGet? td "roles" with
       | some (.dict rs) => rs.all (fun p => nzRoleInfo p.2)
       | _ => false)
      && (match aGet? td "tag" with | some (.int _) => true | _ => false)
      && (match aGet? td "manual_tag" with | some (.int _) => true | _ => false)
      && !(aHas td "base")
  | _ => false

/-- A participant record carrying a structured breakdown. -/
def structuredParticipant (v : Value) : Bool :=
  match v with
  | .dict pd =>
      match aGet? pd "tickets" with
      | some t => structuredBreakdown t
      | none => false
  | _ => false

/-- A participant's breakdown total as `get_total_tickets` computes it. -/
def breakdownTotal (p : Value) : Int :=
  match p with
  | .dict pd =>
      match aGet? pd "tickets" with
      | some t => (get_total_tickets t).getD 0
      | none => 0
  | _ => 0

/-- Sum of breakdown totals over participant records. -/
def sumTotals : List Value → Int
  | [] => 0
  | p :: rest => breakdownTotal p + sumTotals rest

theorem nzRoleInfo_toNum (rd : Dict) (h : nzRoleInfo (.dict rd) = true) :
    (aGetD rd "quantity" (.int 1)).toNum?
      = some (((aGetD rd "quantity" (.int 1)).toNum?).getD 0) := by
  simp only [nzRoleInfo] at h
  cases hqv : aGet? rd "quantity" with
  | none => simp [aGetD, hqv, Value.toNum?]
  | some v =>
      rw [hqv] at h
      cases v with
      | int q => simp [aGetD, hqv, Value.toNum?]
      | null => cases h
      | bool b => cases h
      | str s => cases h
      | list xs => cases h
      | dict d => cases h

theorem statRoles_structured (rs : List (String × Value)) (acc : StAcc)
    (h : rs.all (fun p => nzRoleInfo p.2) = true) :
    ∃ br, statRoles acc rs = some ⟨acc.total + rolesSum rs, acc.withTag, br⟩ := by
  induction rs generalizing acc with
  | nil =>
      refine ⟨acc.byRole, ?_⟩
      show some acc = some ⟨acc.total + rolesSum [], acc.withTag, acc.byRole⟩
      rw [show rolesSum [] = 0 from rfl, add_zero]
  | cons p rest ih =>
      rcases p with ⟨rid, ri⟩
      rw [List.all_cons, Bool.and_eq_true] at h
      obtain ⟨h1, h2⟩ := h
      cases ri with
      | dict rd =>
          obtain ⟨q, hq⟩ : ∃ q, (aGetD rd "quantity" (.int 1)).toNum? = some q :=
            ⟨_, nzRoleInfo_toNum rd h1⟩
          simp only [statRoles, hq]
          obtain ⟨br, hbr⟩ := ih
            ⟨acc.total + q, acc.withTag,
             aUpd (if aHas acc.byRole rid then acc.byRole
                   else aSet acc.byRole rid ⟨0, 0, aGetD rd "abbreviation" (.str "")⟩)
               rid (fun e => ⟨e.count + 1, e.total_tickets + q, e.abbreviation⟩)⟩ h2
          refine ⟨br, ?_⟩
          rw [hbr]
          simp only [rolesSum, hq, Option.getD_some]
          rw [add_assoc]
      | null => cases h1
      | bool b => cases h1
      | int n => cases h1
      | str s => cases h1
      | list xs => cases h1

theorem totalRoles_structured (rs : List (String × Value)) (acc : Int)
    (h : rs.all (fun p => nzRoleInfo p.2) = true) :
    totalRoles rs acc = some (acc + rolesSum rs) := by
  induction rs generalizing acc with
  | nil => simp [totalRoles, rolesSum]
  | cons p rest ih =>
      rcases p with ⟨rid, ri⟩
      rw [List.all_cons, Bool.and_eq_true] at h
      obtain ⟨h1, h2⟩ := h
      cases ri with
      | dict rd =>
          have hrq : roleQty? rd = some (((aGetD rd "quantity" (.int 1)).toNum?).getD 0) := by
            simp only [nzRoleInfo] at h1
            cases hqv : aGet? rd "quantity" with
            | none => simp [roleQty?, aGetD, hqv, pyOr, Value.truthy, pyToInt?, Value.toNum?]
            | some v =>
                rw [hqv] at h1
                cases v with
                | int q =>
                    have hq0 : ¬ q = 0 := by simpa using h1
                    simp [roleQty?, aGetD, hqv, pyOr, Value.truthy, hq0, pyToInt?,
                      Value.toNum?]
                | null => cases h1
                | bool b => cases h1
                | str s => cases h1
                | list xs => cases h1
                | dict d => cases h1
          simp only [totalRoles, hrq]
          rw [ih _ h2]
          simp only [rolesSum]
          rw [add_assoc]
      | null => cases h1
      | bool b => cases h1
      | int n => cases h1
      | str s => cases h1
      | list xs => cases h1

theorem gtt_structured (td : Dict) (rs : List (String × Value)) (tg mt : Int)
    (hroles : aGet? td "roles" = some (.dict rs))
    (hnz : rs.all (fun p => nzRoleInfo p.2) = true)
    (htg : aGet? td "tag" = some (.int tg))
    (hmt : aGet? td "manual_tag" = some (.int mt)) :
    get_total_tickets (.dict td) = some (rolesSum rs + tg + mt) := by
  have hrt : rolesTotal? td = some (rolesSum rs) := by
    simp only [rolesTotal?, aGetD, hroles, Option.getD_some]
    by_cases hrs : rs = []
    · subst hrs
      simp [Value.truthy, rolesSum]
    · have htr : (Value.dict rs).truthy = true := by
        simp [Value.truthy, hrs]
      rw [htr]
      simpa using totalRoles_structured rs 0 hnz
  have h1 : fieldInt? td "tag" = some tg := by
    simp only [fieldInt?, aGetD, htg, Option.getD_some]
    exact pyToInt?_pyOr_int tg
  have h2 : fieldInt? td "manual_tag" = some mt := by
    simp only [fieldInt?, aGetD, hmt, Option.getD_some]
    exact pyToInt?_pyOr_int mt
  simp only [get_total_tickets, hrt, h1, h2]

/-- Destructure a structured participant record into its components. -/
theorem structuredParticipant_dest (p : Value) (h : structuredParticipant p = true) :
    ∃ (pd td : Dict) (rs : List (String × Value)) (tg mt : Int),
      p = .dict pd ∧ aGet? pd "tickets" = some (.dict td)
      ∧ aGet? td "roles" = some (.dict rs)
      ∧ rs.all (fun q => nzRoleInfo q.2) = true
      ∧ aGet? td "tag" = some (.int tg)
      ∧ aGet? td "manual_tag" = some (.int mt)
      ∧ aHas td "base" = false := by
  cases p with
  | dict pd =>
      simp only [structuredParticipant] at h
      cases htk : aGet? pd "tickets" with
      | none => rw [htk] at h; cases h
      | some t =>
          simp only [htk] at h
          cases t with
          | dict td =>
              rw [show structuredBreakdown (.dict td)
                  = ((match aGet? td "roles" with
                      | some (.dict rs) => rs.all (fun p => nzRoleInfo p.2)
                      | _ => false)
                    && (match aGet? td "tag" with
                        | some (.int _) => true | _ => false)
                    && (match aGet? td "manual_tag" with
                        | some (.int _) => true | _ => false)
                    && !(aHas td "base")) from rfl,
                Bool.and_eq_true, Bool.and_eq_true, Bool.and_eq_true] at h
              obtain ⟨⟨⟨hr, ht⟩, hm⟩, hb⟩ := h
              have hbf : aHas td "base" = false := by
                cases hbb : aHas td "base"
                · rfl
                · rw [hbb] at hb; cases hb
              obtain ⟨rs, hrv, hnz⟩ :
                  ∃ rs, aGet? td "roles" = some (.dict rs)
                    ∧ rs.all (fun q => nzRoleInfo q.2) = true := by
                cases hrv : aGet? td "roles" with
                | none => rw [hrv] at hr; exact Bool.noConfusion hr
                | some v =>
                    rw [hrv] at hr
                    cases v with
                    | dict rs => exact ⟨rs, rfl, hr⟩
                    | null => exact Bool.noConfusion hr
                    | bool b => exact Bool.noConfusion hr
                    | int n => exact Bool.noConfusion hr
                    | str s => exact Bool.noConfusion hr
                    | list xs => exact Bool.noConfusion hr
              obtain ⟨tg, htgv⟩ : ∃ tg, aGet? td "tag" = some (.int tg) := by
                cases htgv : aGet? td "tag" with
                | none => rw [htgv] at ht; exact Bool.noConfusion ht
                | some v =>
                    rw [htgv] at ht
                    cases v with
                    | int tg => exact ⟨tg, rfl⟩
                    | null => exact Bool.noConfusion ht
                    | bool b => exact Bool.noConfusion ht
                    | str s => exact Bool.noConfusion ht
                    | list xs => exact Bool.noConfusion ht
                    | dict d => exact Bool.noConfusion ht
              obtain ⟨mt, hmv⟩ : ∃ mt, aGet? td "manual_tag" = some (.int mt) := by
                cases hmv : aGet? td "manual_tag" with
                | none => rw [hmv] at hm; exact Bool.noConfusion hm
                | some v =>
                    rw [hmv] at hm
                    cases v with
                    | int mt => exact ⟨mt, rfl⟩
                    | null => exact Bool.noConfusion hm
                    | bool b => exact Bool.noConfusion hm
                    | str s => exact Bool.noConfusion hm
                    | list xs => exact Bool.noConfusion hm
                    | dict d => exact Bool.noConfusion hm
              exact ⟨pd, td, rs, tg, mt, rfl, htk, hrv, hnz, htgv, hmv, hbf⟩
          | null => cases h
          | bool b => cases h
          | int n => cases h
          | str s => cases h
          | list xs => cases h
  | null => cases h
  | bool b => cases h
  | int n => cases h
  | str s => cases h
  | list xs => cases h

theorem statOne_structured (acc : StAcc) (pd td : Dict) (rs : List (String × Value))
    (tg mt : Int)
    (htk : aGet? pd "tickets" = some (.dict td))
    (hroles : aGet? td "roles" = some (.dict rs))
    (hnz : rs.all (fun q => nzRoleInfo q.2) = true)
    (htg : aGet? td "tag" = some (.int tg))
    (hmt : aGet? td "manual_tag" = some (.int mt))
    (hnb : aHas td "base" = false) :
    ∃ st, statOne acc (.dict pd) = some st
      ∧ st.total = acc.total + 1 + (rolesSum rs + tg + mt) := by
  have hbase : aGet? td "base" = none := aGet?_eq_none_of_aHas_false td "base" hnb
  obtain ⟨br, hbr⟩ := statRoles_structured rs
    ⟨acc.total + 1 + (tg + mt), acc.withTag + (if 0 < tg + mt then 1 else 0), acc.byRole⟩
    hnz
  refine ⟨⟨acc.total + 1 + (tg + mt) + rolesSum rs,
      acc.withTag + (if 0 < tg + mt then 1 else 0), br⟩, ?_, ?_⟩
  · simp only [statOne, aGetD, htk, Option.getD_some, hbase, Option.getD_none,
      htg, hmt, hroles, Value.toNum?]
    rw [hbr]
  · show (acc.total + 1 + (tg + mt) + rolesSum rs)
      = acc.total + 1 + (rolesSum rs + tg + mt)
    omega

theorem statFold_structured (ps : List Value) (acc : StAcc)
    (h : ∀ p ∈ ps, structuredParticipant p = true) :
    ∃ st, statFold acc ps = some st
      ∧ st.total = acc.total + ps.length + sumTotals ps := by
  induction ps generalizing acc with
  | nil =>
      refine ⟨acc, rfl, ?_⟩
      simp [sumTotals]
  | cons p rest ih =>
      obtain ⟨pd, td, rs, tg, mt, rfl, htk, hrv, hnz, htgv, hmv, hbf⟩ :=
        structuredParticipant_dest p (h p (List.mem_cons_self _ _))
      obtain ⟨st1, hst1, htot1⟩ :=
        statOne_structured acc pd td rs tg mt htk hrv hnz htgv hmv hbf
      obtain ⟨st2, hst2, htot2⟩ := ih st1 (fun q hq => h q (List.mem_cons_of_mem _ hq))
      refine ⟨st2, ?_, ?_⟩
      · simp only [statFold, hst1, hst2]
      · have hbt : breakdownTotal (.dict pd) = rolesSum rs + tg + mt := by
          simp only [breakdownTotal, htk,
            gtt_structured td rs tg mt hrv hnz htgv hmv, Option.getD_some]
        rw [htot2, htot1]
        simp only [sumTotals, hbt, List.length_cons]
        push_cast
        omega

/-- C3 (amended): for participants all carrying structured breakdowns, the
aggregate `total_tickets` equals the sum of the per-participant breakdown
totals PLUS one extra ticket per participant — the legacy
`tickets.get("base", 1)` term, which defaults to 1 on every breakdown that
has no `base` field.  The claim's equality without this per-participant term
is refuted by the counterexample. -/
theorem C3_statistics_adds_base_per_participant (db ps : Dict)
    (hps : aGet? db "participants" = some (.dict ps))
    (hwf : ∀ p ∈ ps.map Prod.snd, structuredParticipant p = true)
    (hbl : (pyLen? (aGetD db "blacklist" (.dict []))).isSome = true) :
    (get_statistics db).map Stats.total_tickets
      = some (sumTotals (ps.map Prod.snd) + ps.length) := by
  obtain ⟨st, hst, htot⟩ := statFold_structured (ps.map Prod.snd) ⟨0, 0, []⟩ hwf
  obtain ⟨bc, hbc⟩ := Option.isSome_iff_exists.mp hbl
  have hget : aGetD db "participants" (.dict []) = .dict ps := by
    simp [aGetD, hps]
  simp only [get_statistics, hget, hst, hbc, Option.map_some']
  rw [htot]
  simp only [List.length_map, Option.some.injEq]
  omega

/-- The C3 witness snapshot: two structured participants, with breakdown
totals 2 and 0. -/
def dbW3 : Dict :=
  [ ("participants", .dict
      [ ("1", .dict [("tickets", .dict
          [("roles", .dict [("9", .dict [("quantity", .int 2), ("abbreviation", .str "S")])]),
           ("tag", .int 0), ("tag_text", .str ""), ("manual_tag", .int 0)])]),
        ("2", .dict [("tickets", .dict
          [("roles", .dict []), ("tag", .int 0), ("tag_text", .str ""),
           ("manual_tag", .int 0)])]) ]),
    ("blacklist", .dict []) ]

/-- Witness for C3: on the two-participant structured snapshot the aggregate
total is the breakdown-total sum plus one per participant. -/
theorem C3_statistics_adds_base_per_participant_witness :
    (get_statistics dbW3).map Stats.total_tickets
      = some (sumTotals
          ([ ("1", Value.dict [("tickets", .dict
              [("roles", .dict [("9", .dict [("quantity", .int 2), ("abbreviation", .str "S")])]),
               ("tag", .int 0), ("tag_text", .str ""), ("manual_tag", .int 0)])]),
             ("2", Value.dict [("tickets", .dict
              [("roles", .dict []), ("tag", .int 0), ("tag_text", .str ""),
               ("manual_tag", .int 0)])]) ].map Prod.snd)
          + ([ ("1", Value.dict [("tickets", .dict
              [("roles", .dict [("9", .dict [("quantity", .int 2), ("abbreviation", .str "S")])]),
               ("tag", .int 0), ("tag_text", .str ""), ("manual_tag", .int 0)])]),
             ("2", Value.dict [("tickets", .dict
              [("roles", .dict []), ("tag", .int 0), ("tag_text", .str ""),
               ("manual_tag", .int 0)])]) ] : Dict).length) :=
  C3_statistics_adds_base_per_participant dbW3 _ rfl (by decide) (by decide)

/-- The structured breakdown of the C3 counterexample participant. -/
def structTC3 : Value :=
  .dict [("roles", .dict []), ("tag", .int 0), ("tag_text", .str ""),
    ("manual_tag", .int 0)]

/-- The C3 counterexample snapshot: one participant with an all-zero
structured breakdown. -/
def cxDbC3 : Dict :=
  [("participants", .dict [("1", .dict [("tickets", structTC3)])]),
   ("blacklist", .dict [])]

/-- C3 counterexample: the aggregate reports 1 ticket while the participant's
breakdown total is 0 — `get_statistics` adds the extra `base` term the claim
says it does not. -/
theorem C3_counterexample :
    (get_statistics cxDbC3).map Stats.total_tickets = some 1
    ∧ get_total_tickets structTC3 = some 0
    ∧ (1 : Int) ≠ 0 :=
  ⟨rfl, rfl, by decide⟩

/-! ## Claim C10: shape preservation by every ledger operation -/

theorem aHas_aSet_of {α : Type} (l : List (String × α)) (k k' : String) (v : α)
    (h : aHas l k' = true) : aHas (aSet l k v) k' = true := by
  by_cases hk : k = k'
  · subst hk; simp
  · rw [aHas_aSet_ne _ _ _ _ hk]; exact h

theorem keyIsDict_aSet_ne (db : Dict) (k k' : String) (v : Value) (h : ¬ k = k') :
    keyIsDict (aSet db k v) k' = keyIsDict db k' := by
  simp [keyIsDict, aGet?_aSet_ne _ _ _ _ h]

theorem keyIsDict_aSet_self (db : Dict) (k : String) (d : Dict) :
    keyIsDict (aSet db k (.dict d)) k = true := by
  simp [keyIsDict]

theorem keyIsList_aSet_ne (db : Dict) (k k' : String) (v : Value) (h : ¬ k = k') :
    keyIsList (aSet db k v) k' = keyIsList db k' := by
  simp [keyIsList, aGet?_aSet_ne _ _ _ _ h]

theorem keyIsList_aSet_self (db : Dict) (k : String) (xs : List Value) :
    keyIsList (aSet db k (.list xs)) k = true := by
  simp [keyIsList]

theorem subKeys_aSet_ne (db : Dict) (k k' : String) (ks : List String) (v : Value)
    (h : ¬ k = k') : subKeys (aSet db k v) k' ks = subKeys db k' ks := by
  simp [subKeys, aGet?_aSet_ne _ _ _ _ h]

theorem subKeys_aSet_self (db : Dict) (k : String) (ks : List String) (inner : Dict) :
    subKeys (aSet db k (.dict inner)) k ks = ks.all (aHas inner) := by
  simp [subKeys]

/-- Destructure `canonShape` into its ten components. -/
theorem canonShape_parts (db : Dict) (h : canonShape db = true) :
    keyIsDict db "participants" = true ∧ keyIsDict db "bonus_roles" = true
    ∧ keyIsDict db "blacklist" = true ∧ keyIsList db "moderators" = true
    ∧ subKeys db "hashtag" ["value", "locked"] = true
    ∧ subKeys db "tag" ["enabled", "text", "quantity"] = true
    ∧ subKeys db "chat_lock" ["enabled", "channel_id"] = true
    ∧ aHas db "inscricao_channel" = true ∧ aHas db "button_message_id" = true
    ∧ aHas db "inscricoes_closed" = true := by
  rw [show canonShape db
      = (keyIsDict db "participants" && keyIsDict db "bonus_roles"
        && keyIsDict db "blacklist" && keyIsList db "moderators"
        && subKeys db "hashtag" ["value", "locked"]
        && subKeys db "tag" ["enabled", "text", "quantity"]
        && subKeys db "chat_lock" ["enabled", "channel_id"]
        && aHas db "inscricao_channel" && aHas db "button_message_id"
        && aHas db "inscricoes_closed") from rfl] at h
  simp only [Bool.and_eq_true] at h
  obtain ⟨⟨⟨⟨⟨⟨⟨⟨⟨h1, h2⟩, h3⟩, h4⟩, h5⟩, h6⟩, h7⟩, h8⟩, h9⟩, h10⟩ := h
  exact ⟨h1, h2, h3, h4, h5, h6, h7, h8, h9, h10⟩

/-- Rebuild `canonShape` from its ten components. -/
theorem canonShape_build (db : Dict)
    (h1 : keyIsDict db "participants" = true) (h2 : keyIsDict db "bonus_roles" = true)
    (h3 : keyIsDict db "blacklist" = true) (h4 : keyIsList db "moderators" = true)
    (h5 : subKeys db "hashtag" ["value", "locked"] = true)
    (h6 : subKeys db "tag" ["enabled", "text", "quantity"] = true)
    (h7 : subKeys db "chat_lock" ["enabled", "channel_id"] = true)
    (h8 : aHas db "inscricao_channel" = true) (h9 : aHas db "button_message_id" = true)
    (h10 : aHas db "inscricoes_closed" = true) : canonShape db = true := by
  rw [show canonShape db
      = (keyIsDict db "participants" && keyIsDict db "bonus_roles"
        && keyIsDict db "blacklist" && keyIsList db "moderators"
        && subKeys db "hashtag" ["value", "locked"]
        && subKeys db "tag" ["enabled", "text", "quantity"]
        && subKeys db "chat_lock" ["enabled", "channel_id"]
        && aHas db "inscricao_channel" && aHas db "button_message_id"
        && aHas db "inscricoes_closed") from rfl]
  rw [h1, h2, h3, h4, h5, h6, h7, h8, h9, h10]
  rfl

/-- `canonShape` is preserved by overwriting one top-level key with a value
of the matching shape. -/
theorem canonShape_aSet (db : Dict) (k : String) (v : Value)
    (h : canonShape db = true)
    (hk : k = "participants" ∨ k = "bonus_roles" ∨ k = "blacklist"
      ∨ k = "moderators" ∨ k = "hashtag" ∨ k = "tag" ∨ k = "chat_lock"
      ∨ k = "inscricao_channel" ∨ k = "button_message_id"
      ∨ k = "inscricoes_closed")
    (hv : (k = "participants" ∨ k = "bonus_roles" ∨ k = "blacklist" →
            ∃ d, v = Value.dict d)
      ∧ (k = "moderators" → ∃ xs, v = Value.list xs)
      ∧ (k = "hashtag" → ∃ d, v = Value.dict d
          ∧ aHas d "value" = true ∧ aHas d "locked" = true)
      ∧ (k = "tag" → ∃ d, v = Value.dict d ∧ aHas d "enabled" = true
          ∧ aHas d "text" = true ∧ aHas d "quantity" = true)
      ∧ (k = "chat_lock" → ∃ d, v = Value.dict d ∧ aHas d "enabled" = true
          ∧ aHas d "channel_id" = true)) :
    canonShape (aSet db k v) = true := by
  obtain ⟨h1, h2, h3, h4, h5, h6, h7, h8, h9, h10⟩ := canonShape_parts db h
  obtain ⟨hvd, hvl, hvh, hvt, hvc⟩ := hv
  rcases hk with rfl | rfl | rfl | rfl | rfl | rfl | rfl | rfl | rfl | rfl
  · obtain ⟨d, rfl⟩ := hvd (Or.inl rfl)
    refine canonShape_build _ (keyIsDict_aSet_self _ _ _) ?_ ?_ ?_ ?_ ?_ ?_ ?_ ?_ ?_
    · rw [keyIsDict_aSet_ne _ _ _ _ (by decide)]; exact h2
    · rw [keyIsDict_aSet_ne _ _ _ _ (by decide)]; exact h3
    · rw [keyIsList_aSet_ne _ _ _ _ (by decide)]; exact h4
    · rw [subKeys_aSet_ne _ _ _ _ _ (by decide)]; exact h5
    · rw [subKeys_aSet_ne _ _ _ _ _ (by decide)]; exact h6
    · rw [subKeys_aSet_ne _ _ _ _ _ (by decide)]; exact h7
    · rw [aHas_aSet_ne _ _ _ _ (by decide)]; exact h8
    · rw [aHas_aSet_ne _ _ _ _ (by decide)]; exact h9
    · rw [aHas_aSet_ne _ _ _ _ (by decide)]; exact h10
  · obtain ⟨d, rfl⟩ := hvd (Or.inr (Or.inl rfl))
    refine canonShape_build _ ?_ (keyIsDict_aSet_self _ _ _) ?_ ?_ ?_ ?_ ?_ ?_ ?_ ?_
    · rw [keyIsDict_aSet_ne _ _ _ _ (by decide)]; exact h1
    · rw [keyIsDict_aSet_ne _ _ _ _ (by decide)]; exact h3
    · rw [keyIsList_aSet_ne _ _ _ _ (by decide)]; exact h4
    · rw [subKeys_aSet_ne _ _ _ _ _ (by decide)]; exact h5
    · rw [subKeys_aSet_ne _ _ _ _ _ (by decide)]; exact h6
    · rw [subKeys_aSet_ne _ _ _ _ _ (by decide)]; exact h7
    · rw [aHas_aSet_ne _ _ _ _ (by decide)]; exact h8
    · rw [aHas_aSet_ne _ _ _ _ (by decide)]; exact h9
    · rw [aHas_aSet_ne _ _ _ _ (by decide)]; exact h10
  · obtain ⟨d, rfl⟩ := hvd (Or.inr (Or.inr rfl))
    refine canonShape_build _ ?_ ?_ (keyIsDict_aSet_self _ _ _) ?_ ?_ ?_ ?_ ?_ ?_ ?_
    · rw [keyIsDict_aSet_ne _ _ _ _ (by decide)]; exact h1
    · rw [keyIsDict_aSet_ne _ _ _ _ (by decide)]; exact h2
    · rw [keyIsList_aSet_ne _ _ _ _ (by decide)]; exact h4
    · rw [subKeys_aSet_ne _ _ _ _ _ (by decide)]; exact h5
    · rw [subKeys_aSet_ne _ _ _ _ _ (by decide)]; exact h6
    · rw [subKeys_aSet_ne _ _ _ _ _ (by decide)]; exact h7
    · rw [aHas_aSet_ne _ _ _ _ (by decide)]; exact h8
    · rw [aHas_aSet_ne _ _ _ _ (by decide)]; exact h9
    · rw [aHas_aSet_ne _ _ _ _ (by decide)]; exact h10
  · obtain ⟨xs, rfl⟩ := hvl rfl
    refine canonShape_build _ ?_ ?_ ?_ (keyIsList_aSet_self _ _ _) ?_ ?_ ?_ ?_ ?_ ?_
    · rw [keyIsDict_aSet_ne _ _ _ _ (by decide)]; exact h1
    · rw [keyIsDict_aSet_ne _ _ _ _ (by decide)]; exact h2
    · rw [keyIsDict_aSet_ne _ _ _ _ (by decide)]; exact h3
    · rw [subKeys_aSet_ne _ _ _ _ _ (by decide)]; exact h5
    · rw [subKeys_aSet_ne _ _ _ _ _ (by decide)]; exact h6
    · rw [subKeys_aSet_ne _ _ _ _ _ (by decide)]; exact h7
    · rw [aHas_aSet_ne _ _ _ _ (by decide)]; exact h8
    · rw [aHas_aSet_ne _ _ _ _ (by decide)]; exact h9
    · rw [aHas_aSet_ne _ _ _ _ (by decide)]; exact h10
  · obtain ⟨d, rfl, hva, hvb⟩ := hvh rfl
    refine canonShape_build _ ?_ ?_ ?_ ?_ ?_ ?_ ?_ ?_ ?_ ?_
    · rw [keyIsDict_aSet_ne _ _ _ _ (by decide)]; exact h1
    · rw [keyIsDict_aSet_ne _ _ _ _ (by decide)]; exact h2
    · rw [keyIsDict_aSet_ne _ _ _ _ (by decide)]; exact h3
    · rw [keyIsList_aSet_ne _ _ _ _ (by decide)]; exact h4
    · rw [subKeys_aSet_self]
      simp [hva, hvb]
    · rw [subKeys_aSet_ne _ _ _ _ _ (by decide)]; exact h6
    · rw [subKeys_aSet_ne _ _ _ _ _ (by decide)]; exact h7
    · rw [aHas_aSet_ne _ _ _ _ (by decide)]; exact h8
    · rw [aHas_aSet_ne _ _ _ _ (by decide)]; exact h9
    · rw [aHas_aSet_ne _ _ _ _ (by decide)]; exact h10
  · obtain ⟨d, rfl, hva, hvb, hvc2⟩ := hvt rfl
    refine canonShape_build _ ?_ ?_ ?_ ?_ ?_ ?_ ?_ ?_ ?_ ?_
    · rw [keyIsDict_aSet_ne _ _ _ _ (by decide)]; exact h1
    · rw [keyIsDict_aSet_ne _ _ _ _ (by decide)]; exact h2
    · rw [keyIsDict_aSet_ne _ _ _ _ (by decide)]; exact h3
    · rw [keyIsList_aSet_ne _ _ _ _ (by decide)]; exact h4
    · rw [subKeys_aSet_ne _ _ _ _ _ (by decide)]; exact h5
    · rw [subKeys_aSet_self]
      simp [hva, hvb, hvc2]
    · rw [subKeys_aSet_ne _ _ _ _ _ (by decide)]; exact h7
    · rw [aHas_aSet_ne _ _ _ _ (by decide)]; exact h8
    · rw [aHas_aSet_ne _ _ _ _ (by decide)]; exact h9
    · rw [aHas_aSet_ne _ _ _ _ (by decide)]; exact h10
  · obtain ⟨d, rfl, hva, hvb⟩ := hvc rfl
    refine canonShape_build _ ?_ ?_ ?_ ?_ ?_ ?_ ?_ ?_ ?_ ?_
    · rw [keyIsDict_aSet_ne _ _ _ _ (by decide)]; exact h1
    · rw [keyIsDict_aSet_ne _ _ _ _ (by decide)]; exact h2
    · rw [keyIsDict_aSet_ne _ _ _ _ (by decide)]; exact h3
    · rw [keyIsList_aSet_ne _ _ _ _ (by decide)]; exact h4
    · rw [subKeys_aSet_ne _ _ _ _ _ (by decide)]; exact h5
    · rw [subKeys_aSet_ne _ _ _ _ _ (by decide)]; exact h6
    · rw [subKeys_aSet_self]
      simp [hva, hvb]
    · rw [aHas_aSet_ne _ _ _ _ (by decide)]; exact h8
    · rw [aHas_aSet_ne _ _ _ _ (by decide)]; exact h9
    · rw [aHas_aSet_ne _ _ _ _ (by decide)]; exact h10
  · refine canonShape_build _ ?_ ?_ ?_ ?_ ?_ ?_ ?_ (aHas_aSet_self _ _ _) ?_ ?_
    · rw [keyIsDict_aSet_ne _ _ _ _ (by decide)]; exact h1
    · rw [keyIsDict_aSet_ne _ _ _ _ (by decide)]; exact h2
    · rw [keyIsDict_aSet_ne _ _ _ _ (by decide)]; exact h3
    · rw [keyIsList_aSet_ne _ _ _ _ (by decide)]; exact h4
    · rw [subKeys_aSet_ne _ _ _ _ _ (by decide)]; exact h5
    · rw [subKeys_aSet_ne _ _ _ _ _ (by decide)]; exact h6
    · rw [subKeys_aSet_ne _ _ _ _ _ (by decide)]; exact h7
    · rw [aHas_aSet_ne _ _ _ _ (by decide)]; exact h9
    · rw [aHas_aSet_ne _ _ _ _ (by decide)]; exact h10
  · refine canonShape_build _ ?_ ?_ ?_ ?_ ?_ ?_ ?_ ?_ (aHas_aSet_self _ _ _) ?_
    · rw [keyIsDict_aSet_ne _ _ _ _ (by decide)]; exact h1
    · rw [keyIsDict_aSet_ne _ _ _ _ (by decide)]; exact h2
    · rw [keyIsDict_aSet_ne _ _ _ _ (by decide)]; exact h3
    · rw [keyIsList_aSet_ne _ _ _ _ (by decide)]; exact h4
    · rw [subKeys_aSet_ne _ _ _ _ _ (by decide)]; exact h5
    · rw [subKeys_aSet_ne _ _ _ _ _ (by decide)]; exact h6
    · rw [subKeys_aSet_ne _ _ _ _ _ (by decide)]; exact h7
    · rw [aHas_aSet_ne _ _ _ _ (by decide)]; exact h8
    · rw [aHas_aSet_ne _ _ _ _ (by decide)]; exact h10
  · refine canonShape_build _ ?_ ?_ ?_ ?_ ?_ ?_ ?_ ?_ ?_ (aHas_aSet_self _ _ _)
    · rw [keyIsDict_aSet_ne _ _ _ _ (by decide)]; exact h1
    · rw [keyIsDict_aSet_ne _ _ _ _ (by decide)]; exact h2
    · rw [keyIsDict_aSet_ne _ _ _ _ (by decide)]; exact h3
    · rw [keyIsList_aSet_ne _ _ _ _ (by decide)]; exact h4
    · rw [subKeys_aSet_ne _ _ _ _ _ (by decide)]; exact h5
    · rw [subKeys_aSet_ne _ _ _ _ _ (by decide)]; exact h6
    · rw [subKeys_aSet_ne _ _ _ _ _ (by decide)]; exact h7
    · rw [aHas_aSet_ne _ _ _ _ (by decide)]; exact h8
    · rw [aHas_aSet_ne _ _ _ _ (by decide)]; exact h9

theorem keyIsDict_dest (db : Dict) (k : String) (h : keyIsDict db k = true) :
    ∃ d, aGet? db k = some (.dict d) := by
  unfold keyIsDict at h
  cases hx : aGet? db k with
  | none => rw [hx] at h; exact Bool.noConfusion h
  | some v =>
      rw [hx] at h
      cases v with
      | dict d => exact ⟨d, rfl⟩
      | null => exact Bool.noConfusion h
      | bool b => exact Bool.noConfusion h
      | int n => exact Bool.noConfusion h
      | str s => exact Bool.noConfusion h
      | list xs => exact Bool.noConfusion h

theorem keyIsList_dest (db : Dict) (k : String) (h : keyIsList db k = true) :
    ∃ xs, aGet? db k = some (.list xs) := by
  unfold keyIsList at h
  cases hx : aGet? db k with
  | none => rw [hx] at h; exact Bool.noConfusion h
  | some v =>
      rw [hx] at h
      cases v with
      | list xs => exact ⟨xs, rfl⟩
      | null => exact Bool.noConfusion h
      | bool b => exact Bool.noConfusion h
      | int n => exact Bool.noConfusion h
      | str s => exact Bool.noConfusion h
      | dict d => exact Bool.noConfusion h

theorem subKeys_dest (db : Dict) (k : String) (ks : List String)
    (h : subKeys db k ks = true) :
    ∃ d, aGet? db k = some (.dict d) ∧ ks.all (aHas d) = true := by
  unfold subKeys at h
  cases hx : aGet? db k with
  | none => rw [hx] at h; exact Bool.noConfusion h
  | some v =>
      rw [hx] at h
      cases v with
      | dict d => exact ⟨d, rfl, h⟩
      | null => exact Bool.noConfusion h
      | bool b => exact Bool.noConfusion h
      | int n => exact Bool.noConfusion h
      | str s => exact Bool.noConfusion h
      | list xs => exact Bool.noConfusion h

/-! Specialised shape-preservation lemmas, one per top-level key. -/

theorem canonShape_set_participants (db d : Dict) (h : canonShape db = true) :
    canonShape (aSet db "participants" (.dict d)) = true :=
  canonShape_aSet db _ _ h (Or.inl rfl)
    ⟨fun _ => ⟨d, rfl⟩, fun hk => absurd hk (by decide), fun hk => absurd hk (by decide),
     fun hk => absurd hk (by decide), fun hk => absurd hk (by decide)⟩

theorem canonShape_set_bonus_roles (db d : Dict) (h : canonShape db = true) :
    canonShape (aSet db "bonus_roles" (.dict d)) = true :=
  canonShape_aSet db _ _ h (Or.inr (Or.inl rfl))
    ⟨fun _ => ⟨d, rfl⟩, fun hk => absurd hk (by decide), fun hk => absurd hk (by decide),
     fun hk => absurd hk (by decide), fun hk => absurd hk (by decide)⟩

theorem canonShape_set_blacklist (db d : Dict) (h : canonShape db = true) :
    canonShape (aSet db "blacklist" (.dict d)) = true :=
  canonShape_aSet db _ _ h (Or.inr (Or.inr (Or.inl rfl)))
    ⟨fun _ => ⟨d, rfl⟩, fun hk => absurd hk (by decide), fun hk => absurd hk (by decide),
     fun hk => absurd hk (by decide), fun hk => absurd hk (by decide)⟩

theorem canonShape_set_moderators (db : Dict) (xs : List Value)
    (h : canonShape db = true) :
    canonShape (aSet db "moderators" (.list xs)) = true :=
  canonShape_aSet db _ _ h (Or.inr (Or.inr (Or.inr (Or.inl rfl))))
    ⟨fun hk => absurd hk (by decide), fun _ => ⟨xs, rfl⟩, fun hk => absurd hk (by decide),
     fun hk => absurd hk (by decide), fun hk => absurd hk (by decide)⟩

theorem canonShape_set_hashtag (db d : Dict) (h : canonShape db = true)
    (hv : aHas d "value" = true) (hl : aHas d "locked" = true) :
    canonShape (aSet db "hashtag" (.dict d)) = true :=
  canonShape_aSet db _ _ h (Or.inr (Or.inr (Or.inr (Or.inr (Or.inl rfl)))))
    ⟨fun hk => absurd hk (by decide), fun hk => absurd hk (by decide),
     fun _ => ⟨d, rfl, hv, hl⟩, fun hk => absurd hk (by decide),
     fun hk => absurd hk (by decide)⟩

theorem canonShape_set_tag (db d : Dict) (h : canonShape db = true)
    (he : aHas d "enabled" = true) (ht : aHas d "text" = true)
    (hq : aHas d "quantity" = true) :
    canonShape (aSet db "tag" (.dict d)) = true :=
  canonShape_aSet db _ _ h (Or.inr (Or.inr (Or.inr (Or.inr (Or.inr (Or.inl rfl))))))
    ⟨fun hk => absurd hk (by decide), fun hk => absurd hk (by decide),
     fun hk => absurd hk (by decide), fun _ => ⟨d, rfl, he, ht, hq⟩,
     fun hk => absurd hk (by decide)⟩

theorem canonShape_set_chat_lock (db d : Dict) (h : canonShape db = true)
    (he : aHas d "enabled" = true) (hc : aHas d "channel_id" = true) :
    canonShape (aSet db "chat_lock" (.dict d)) = true :=
  canonShape_aSet db _ _ h
    (Or.inr (Or.inr (Or.inr (Or.inr (Or.inr (Or.inr (Or.inl rfl)))))))
    ⟨fun hk => absurd hk (by decide), fun hk => absurd hk (by decide),
     fun hk => absurd hk (by decide), fun hk => absurd hk (by decide),
     fun _ => ⟨d, rfl, he, hc⟩⟩

theorem canonShape_set_inscricao_channel (db : Dict) (v : Value)
    (h : canonShape db = true) :
    canonShape (aSet db "inscricao_channel" v) = true :=
  canonShape_aSet db _ _ h
    (Or.inr (Or.inr (Or.inr (Or.inr (Or.inr (Or.inr (Or.inr (Or.inl rfl))))))))
    ⟨fun hk => absurd hk (by decide), fun hk => absurd hk (by decide),
     fun hk => absurd hk (by decide), fun hk => absurd hk (by decide),
     fun hk => absurd hk (by decide)⟩

theorem canonShape_set_button (db : Dict) (v : Value) (h : canonShape db = true) :
    canonShape (aSet db "button_message_id" v) = true :=
  canonShape_aSet db _ _ h
    (Or.inr (Or.inr (Or.inr (Or.inr (Or.inr (Or.inr (Or.inr (Or.inr (Or.inl rfl)))))))))
    ⟨fun hk => absurd hk (by decide), fun hk => absurd hk (by decide),
     fun hk => absurd hk (by decide), fun hk => absurd hk (by decide),
     fun hk => absurd hk (by decide)⟩

theorem canonShape_set_closed (db : Dict) (v : Value) (h : canonShape db = true) :
    canonShape (aSet db "inscricoes_closed" v) = true :=
  canonShape_aSet db _ _ h
    (Or.inr (Or.inr (Or.inr (Or.inr (Or.inr (Or.inr (Or.inr (Or.inr (Or.inr rfl)))))))))
    ⟨fun hk => absurd hk (by decide), fun hk => absurd hk (by decide),
     fun hk => absurd hk (by decide), fun hk => absurd hk (by decide),
     fun hk => absurd hk (by decide)⟩

theorem aHas_tagTextStep_of (t1 : Dict) (text : Option String) (sub : String)
    (h : aHas t1 sub = true) : aHas (tagTextStep t1 text) sub = true := by
  cases text with
  | none => exact h
  | some s =>
      show aHas (if s ≠ "" then aSet t1 "text" (.str s) else t1) sub = true
      by_cases hs : s ≠ ""
      · rw [if_pos hs]; exact aHas_aSet_of _ _ _ _ h
      · rw [if_neg hs]; exact h

theorem aHas_setTagDict_of (t : Dict) (e : Bool) (text : Option String) (q : Int)
    (sub : String) (h : aHas t sub = true) :
    aHas (setTagDict t e text q) sub = true := by
  unfold setTagDict
  by_cases hq : q > 0
  · rw [if_pos hq]
    exact aHas_aSet_of _ _ _ _ (aHas_tagTextStep_of _ _ _ (aHas_aSet_of _ _ _ _ h))
  · rw [if_neg hq]
    exact aHas_tagTextStep_of _ _ _ (aHas_aSet_of _ _ _ _ h)

theorem aHas_chatChannelStep_of (c1 : Dict) (cid : Option Int) (sub : String)
    (h : aHas c1 sub = true) : aHas (chatChannelStep c1 cid) sub = true := by
  cases cid with
  | none => exact h
  | some c =>
      show aHas (if c ≠ 0 then aSet c1 "channel_id" (.int c) else c1) sub = true
      by_cases hc : c ≠ 0
      · rw [if_pos hc]; exact aHas_aSet_of _ _ _ _ h
      · rw [if_neg hc]; exact h

theorem aHas_setChatLockDict_of (c : Dict) (e : Bool) (cid : Option Int)
    (sub : String) (h : aHas c sub = true) :
    aHas (setChatLockDict c e cid) sub = true :=
  aHas_chatChannelStep_of _ _ _ (aHas_aSet_of _ _ _ _ h)

/-- The operations whose only failure mode is a malformed snapshot shape
(`update_tickets` and `add_manual_tag` can additionally raise on malformed
participant record internals, which the top-level shape does not govern). -/
def shapeOnlyOp : Op → Bool
  | .opUpdateTickets _ _ => false
  | .opAddManualTag _ _ => false
  | _ => true

/-- One step of any ledger operation preserves the canonical shape, and
every shape-only operation succeeds from a canonical snapshot. -/
theorem applyOp_step (op : Op) (db : Dict) (h : canonShape db = true) :
    canonShape ((applyOp op db).getD db) = true
    ∧ (shapeOnlyOp op = true → (applyOp op db).isSome = true) := by
  obtain ⟨h1, h2, h3, h4, h5, h6, h7, h8, h9, h10⟩ := canonShape_parts db h
  cases op with
  | opSetHashtag s =>
      obtain ⟨hh, hget, hsub⟩ := subKeys_dest db "hashtag" _ h5
      have hsAll : ∀ k' ∈ ["value", "locked"], aHas hh k' = true := by
        simpa [List.all_eq_true] using hsub
      simp only [applyOp, set_hashtag, hget, Option.getD_some, Option.isSome_some]
      exact ⟨canonShape_set_hashtag db _ h (aHas_aSet_self _ _ _)
        (aHas_aSet_of _ _ _ _ (hsAll "locked" (by simp))), fun _ => trivial⟩
  | opLockHashtag =>
      obtain ⟨hh, hget, hsub⟩ := subKeys_dest db "hashtag" _ h5
      have hsAll : ∀ k' ∈ ["value", "locked"], aHas hh k' = true := by
        simpa [List.all_eq_true] using hsub
      simp only [applyOp, lock_hashtag, hget, Option.getD_some, Option.isSome_some]
      exact ⟨canonShape_set_hashtag db _ h
        (aHas_aSet_of _ _ _ _ (hsAll "value" (by simp))) (aHas_aSet_self _ _ _),
        fun _ => trivial⟩
  | opUnlockHashtag =>
      obtain ⟨hh, hget, hsub⟩ := subKeys_dest db "hashtag" _ h5
      have hsAll : ∀ k' ∈ ["value", "locked"], aHas hh k' = true := by
        simpa [List.all_eq_true] using hsub
      simp only [applyOp, unlock_hashtag, hget, Option.getD_some, Option.isSome_some]
      exact ⟨canonShape_set_hashtag db _ h
        (aHas_aSet_of _ _ _ _ (hsAll "value" (by simp))) (aHas_aSet_self _ _ _),
        fun _ => trivial⟩
  | opSetTag e t q =>
      obtain ⟨td0, hget, hsub⟩ := subKeys_dest db "tag" _ h6
      have hsAll : ∀ k' ∈ ["enabled", "text", "quantity"], aHas td0 k' = true := by
        simpa [List.all_eq_true] using hsub
      simp only [applyOp, set_tag, hget, Option.getD_some, Option.isSome_some]
      exact ⟨canonShape_set_tag db _ h
        (aHas_setTagDict_of _ _ _ _ _ (hsAll "enabled" (by simp)))
        (aHas_setTagDict_of _ _ _ _ _ (hsAll "text" (by simp)))
        (aHas_setTagDict_of _ _ _ _ _ (hsAll "quantity" (by simp))), fun _ => trivial⟩
  | opAddBonusRole rid q a =>
      obtain ⟨b, hget⟩ := keyIsDict_dest db "bonus_roles" h2
      simp only [applyOp, add_bonus_role, hget, Option.getD_some, Option.isSome_some]
      exact ⟨canonShape_set_bonus_roles db _ h, fun _ => trivial⟩
  | opRemoveBonusRole rid =>
      obtain ⟨b, hget⟩ := keyIsDict_dest db "bonus_roles" h2
      cases hc : aHas b (toString rid) with
      | true =>
          simp only [applyOp, remove_bonus_role, aGetD, hget, Option.getD_some,
            pyContainsStr?, hc, Option.map_some', Option.isSome_some]
          exact ⟨canonShape_set_bonus_roles db _ h, fun _ => trivial⟩
      | false =>
          simp only [applyOp, remove_bonus_role, aGetD, hget, Option.getD_some,
            pyContainsStr?, hc, Option.map_some', Option.isSome_some]
          exact ⟨h, fun _ => trivial⟩
  | opAddParticipant u fn ln tk mid ts =>
      obtain ⟨ps, hget⟩ := keyIsDict_dest db "participants" h1
      simp only [applyOp, add_participant, hget, Option.getD_some, Option.isSome_some]
      exact ⟨canonShape_set_participants db _ h, fun _ => trivial⟩
  | opUpdateTickets u tk =>
      obtain ⟨ps, hget⟩ := keyIsDict_dest db "participants" h1
      cases hc : aHas ps (toString u) with
      | true =>
          obtain ⟨pv, hpv⟩ : ∃ pv, aGet? ps (toString u) = some pv := by
            simpa [aHas, Option.isSome_iff_exists] using hc
          cases pv with
          | dict rec =>
              simp only [applyOp, update_tickets, aGetD, hget, Option.getD_some,
                pyContainsStr?, hc, hpv]
              exact ⟨canonShape_set_participants db _ h,
                fun hfalse => Bool.noConfusion hfalse⟩
          | null =>
              simp only [applyOp, update_tickets, aGetD, hget, Option.getD_some,
                pyContainsStr?, hc, hpv, Option.getD_none]
              exact ⟨h, fun hfalse => Bool.noConfusion hfalse⟩
          | bool bb =>
              simp only [applyOp, update_tickets, aGetD, hget, Option.getD_some,
                pyContainsStr?, hc, hpv, Option.getD_none]
              exact ⟨h, fun hfalse => Bool.noConfusion hfalse⟩
          | int n =>
              simp only [applyOp, update_tickets, aGetD, hget, Option.getD_some,
                pyContainsStr?, hc, hpv, Option.getD_none]
              exact ⟨h, fun hfalse => Bool.noConfusion hfalse⟩
          | str s =>
              simp only [applyOp, update_tickets, aGetD, hget, Option.getD_some,
                pyContainsStr?, hc, hpv, Option.getD_none]
              exact ⟨h, fun hfalse => Bool.noConfusion hfalse⟩
          | list xs =>
              simp only [applyOp, update_tickets, aGetD, hget, Option.getD_some,
                pyContainsStr?, hc, hpv, Option.getD_none]
              exact ⟨h, fun hfalse => Bool.noConfusion hfalse⟩
      | false =>
          simp only [applyOp, update_tickets, aGetD, hget, Option.getD_some,
            pyContainsStr?, hc]
          exact ⟨h, fun hfalse => Bool.noConfusion hfalse⟩
  | opRemoveParticipant u =>
      obtain ⟨ps, hget⟩ := keyIsDict_dest db "participants" h1
      cases hc : aHas ps (toString u) with
      | true =>
          simp only [applyOp, remove_participant, aGetD, hget, Option.getD_some,
            pyContainsStr?, hc, Option.map_some', Option.isSome_some]
          exact ⟨canonShape_set_participants db _ h, fun _ => trivial⟩
      | false =>
          simp only [applyOp, remove_participant, aGetD, hget, Option.getD_some,
            pyContainsStr?, hc, Option.map_some', Option.isSome_some]
          exact ⟨h, fun _ => trivial⟩
  | opAddManualTag u q =>
      obtain ⟨ps, hget⟩ := keyIsDict_dest db "participants" h1
      cases hc : aHas ps (toString u) with
      | false =>
          simp only [applyOp, add_manual_tag, aGetD, hget, Option.getD_some,
            pyContainsStr?, hc]
          exact ⟨h, fun hfalse => Bool.noConfusion hfalse⟩
      | true =>
          obtain ⟨pv, hpv⟩ : ∃ pv, aGet? ps (toString u) = some pv := by
            simpa [aHas, Option.isSome_iff_exists] using hc
          have hbase : ∀ r : Option Dict, r = none ∨ (∃ d2, r = some d2
              ∧ canonShape (r.getD db) = true) → canonShape (r.getD db) = true := by
            intro r hr
            rcases hr with rfl | ⟨d2, rfl, hd2⟩
            · exact h
            · exact hd2
          cases pv with
          | dict rec =>
              cases htv : aGet? rec "tickets" with
              | none =>
                  simp only [applyOp, add_manual_tag, aGetD, hget, Option.getD_some,
                    pyContainsStr?, hc, hpv, htv, Option.getD_none]
                  exact ⟨h, fun hfalse => Bool.noConfusion hfalse⟩
              | some tv =>
                  cases tv with
                  | dict td =>
                      cases hnum : (aGetD (if aHas td "manual_tag" then td
                          else aSet td "manual_tag" (.int 0)) "manual_tag"
                          (.int 0)).toNum? with
                      | some n =>
                          simp only [applyOp, add_manual_tag, aGetD, hget,
                            Option.getD_some, pyContainsStr?, hc, hpv, htv] at hnum ⊢
                          rw [hnum]
                          exact ⟨canonShape_set_participants db _ h,
                            fun hfalse => Bool.noConfusion hfalse⟩
                      | none =>
                          simp only [applyOp, add_manual_tag, aGetD, hget,
                            Option.getD_some, pyContainsStr?, hc, hpv, htv] at hnum ⊢
                          rw [hnum]
                          exact ⟨h, fun hfalse => Bool.noConfusion hfalse⟩
                  | null =>
                      simp only [applyOp, add_manual_tag, aGetD, hget,
                        Option.getD_some, pyContainsStr?, hc, hpv, htv,
                        Option.getD_none]
                      exact ⟨h, fun hfalse => Bool.noConfusion hfalse⟩
                  | bool bb =>
                      simp only [applyOp, add_manual_tag, aGetD, hget,
                        Option.getD_some, pyContainsStr?, hc, hpv, htv,
                        Option.getD_none]
                      exact ⟨h, fun hfalse => Bool.noConfusion hfalse⟩
                  | int n =>
                      simp only [applyOp, add_manual_tag, aGetD, hget,
                        Option.getD_some, pyContainsStr?, hc, hpv, htv,
                        Option.getD_none]
                      exact ⟨h, fun hfalse => Bool.noConfusion hfalse⟩
                  | str s =>
                      simp only [applyOp, add_manual_tag, aGetD, hget,
                        Option.getD_some, pyContainsStr?, hc, hpv, htv,
                        Option.getD_none]
                      exact ⟨h, fun hfalse => Bool.noConfusion hfalse⟩
                  | list xs =>
                      simp only [applyOp, add_manual_tag, aGetD, hget,
                        Option.getD_some, pyContainsStr?, hc, hpv, htv,
                        Option.getD_none]
                      exact ⟨h, fun hfalse => Bool.noConfusion hfalse⟩
          | null =>
              simp only [applyOp, add_manual_tag, aGetD, hget, Option.getD_some,
                pyContainsStr?, hc, hpv, Option.getD_none]
              exact ⟨h, fun hfalse => Bool.noConfusion hfalse⟩
          | bool bb =>
              simp only [applyOp, add_manual_tag, aGetD, hget, Option.getD_some,
                pyContainsStr?, hc, hpv, Option.getD_none]
              exact ⟨h, fun hfalse => Bool.noConfusion hfalse⟩
          | int n =>
              simp only [applyOp, add_manual_tag, aGetD, hget, Option.getD_some,
                pyContainsStr?, hc, hpv, Option.getD_none]
              exact ⟨h, fun hfalse => Bool.noConfusion hfalse⟩
          | str s =>
              simp only [applyOp, add_manual_tag, aGetD, hget, Option.getD_some,
                pyContainsStr?, hc, hpv, Option.getD_none]
              exact ⟨h, fun hfalse => Bool.noConfusion hfalse⟩
          | list xs =>
              simp only [applyOp, add_manual_tag, aGetD, hget, Option.getD_some,
                pyContainsStr?, hc, hpv, Option.getD_none]
              exact ⟨h, fun hfalse => Bool.noConfusion hfalse⟩
  | opClearParticipants =>
      simp only [applyOp, clear_participants, Option.getD_some, Option.isSome_some]
      exact ⟨canonShape_set_participants db _ h, fun _ => trivial⟩
  | opClearAll =>
      simp only [applyOp, clear_all, Option.getD_some, Option.isSome_some]
      exact ⟨by decide, fun _ => trivial⟩
  | opAddToBlacklist u r bby ts =>
      obtain ⟨bl, hget⟩ := keyIsDict_dest db "blacklist" h3
      simp only [applyOp, add_to_blacklist, hget, Option.getD_some, Option.isSome_some]
      exact ⟨canonShape_set_blacklist db _ h, fun _ => trivial⟩
  | opRemoveFromBlacklist u =>
      obtain ⟨bl, hget⟩ := keyIsDict_dest db "blacklist" h3
      cases hc : aHas bl (toString u) with
      | true =>
          simp only [applyOp, remove_from_blacklist, aGetD, hget, Option.getD_some,
            pyContainsStr?, hc, Option.map_some', Option.isSome_some]
          exact ⟨canonShape_set_blacklist db _ h, fun _ => trivial⟩
      | false =>
          simp only [applyOp, remove_from_blacklist, aGetD, hget, Option.getD_some,
            pyContainsStr?, hc, Option.map_some', Option.isSome_some]
          exact ⟨h, fun _ => trivial⟩
  | opSetInscricaoChannel c =>
      simp only [applyOp, set_inscricao_channel, Option.getD_some, Option.isSome_some]
      exact ⟨canonShape_set_inscricao_channel db _ h, fun _ => trivial⟩
  | opSetButtonMessageId m =>
      simp only [applyOp, set_button_message_id, Option.getD_some, Option.isSome_some]
      exact ⟨canonShape_set_button db _ h, fun _ => trivial⟩
  | opAddButtonMessageId m =>
      simp only [applyOp, add_button_message_id, Option.getD_some, Option.isSome_some]
      exact ⟨canonShape_set_button db _ h, fun _ => trivial⟩
  | opSetChatLock e c =>
      obtain ⟨cl, hget, hsub⟩ := subKeys_dest db "chat_lock" _ h7
      have hsAll : ∀ k' ∈ ["enabled", "channel_id"], aHas cl k' = true := by
        simpa [List.all_eq_true] using hsub
      simp only [applyOp, set_chat_lock, hget, Option.getD_some, Option.isSome_some]
      exact ⟨canonShape_set_chat_lock db _ h
        (aHas_setChatLockDict_of _ _ _ _ (hsAll "enabled" (by simp)))
        (aHas_setChatLockDict_of _ _ _ _ (hsAll "channel_id" (by simp))), fun _ => trivial⟩
  | opAddModerator u =>
      obtain ⟨xs, hget⟩ := keyIsList_dest db "moderators" h4
      cases hc : intIn u xs with
      | true =>
          simp only [applyOp, add_moderator, modContains?, hget, hc,
            Option.getD_some, Option.isSome_some]
          exact ⟨h, fun _ => trivial⟩
      | false =>
          simp only [applyOp, add_moderator, modContains?, hget, hc,
            Option.getD_some, Option.isSome_some]
          exact ⟨canonShape_set_moderators db _ h, fun _ => trivial⟩
  | opRemoveModerator u =>
      obtain ⟨xs, hget⟩ := keyIsList_dest db "moderators" h4
      cases hc : intIn u xs with
      | true =>
          simp only [applyOp, remove_moderator, modContains?, hget, hc,
            Option.map_some', Option.getD_some, Option.isSome_some]
          exact ⟨canonShape_set_moderators db _ h, fun _ => trivial⟩
      | false =>
          simp only [applyOp, remove_moderator, modContains?, hget, hc,
            Option.map_some', Option.getD_some, Option.isSome_some]
          exact ⟨h, fun _ => trivial⟩
  | opSetInscricoesClosed b =>
      simp only [applyOp, set_inscricoes_closed, Option.getD_some, Option.isSome_some]
      exact ⟨canonShape_set_closed db _ h, fun _ => trivial⟩

/-- C10: starting from the default snapshot (or after `clear_all`), every
ledger operation preserves the canonical snapshot shape — all ten top-level
keys stay present, `participants`/`bonus_roles`/`blacklist` stay dicts,
`moderators` stays a list, and `hashtag`/`tag`/`chat_lock` stay dicts
retaining their default sub-keys — so every run of operations keeps the
snapshot canonical, and no operation whose failures are shape-driven can
fail on a canonical snapshot. -/
theorem C10_operations_preserve_shape :
    canonShape defaultEntries = true
    ∧ (∀ (op : Op) (db : Dict), canonShape db = true →
        canonShape ((applyOp op db).getD db) = true)
    ∧ (∀ ops : List Op, canonShape (runOps defaultEntries ops) = true)
    ∧ (∀ (op : Op) (db : Dict), canonShape db = true → shapeOnlyOp op = true →
        (applyOp op db).isSome = true) := by
  have hrun : ∀ (ops : List Op) (db : Dict), canonShape db = true →
      canonShape (runOps db ops) = true := by
    intro ops
    induction ops with
    | nil => intro db hdb; exact hdb
    | cons op rest ih =>
        intro db hdb
        exact ih _ (applyOp_step op db hdb).1
  refine ⟨by decide, ?_, ?_, ?_⟩
  · intro op db hdb
    exact (applyOp_step op db hdb).1
  · intro ops
    exact hrun ops defaultEntries (by decide)
  · intro op db hdb hso
    exact (applyOp_step op db hdb).2 hso

/-- Witness for C10: a concrete step, a concrete three-operation run, and a
concrete succeeding shape-only operation, all from the default snapshot. -/
theorem C10_operations_preserve_shape_witness :
    canonShape ((applyOp (.opSetHashtag "x") defaultEntries).getD defaultEntries) = true
    ∧ canonShape (runOps defaultEntries
        [.opAddModerator 1, .opSetTag true (some "vip") 5, .opClearAll]) = true
    ∧ (applyOp (.opAddModerator 1) defaultEntries).isSome = true :=
  ⟨C10_operations_preserve_shape.2.1 (.opSetHashtag "x") defaultEntries (by decide),
   C10_operations_preserve_shape.2.2.1
     [.opAddModerator 1, .opSetTag true (some "vip") 5, .opClearAll],
   C10_operations_preserve_shape.2.2.2 (.opAddModerator 1) defaultEntries
     (by decide) (by decide)⟩

end Tropadovth
